import Mathlib

/-! The job execution engine of filehitch.

A shallow embedding of `pkg/filehitch` (filehitch.go, http_resource.go,
s3_resource.go).  The operating system, the network and the imported
libraries are explicit: the file table, the user database and the outcome of
every call that can fail are fields of `World`; the library functions the
package imports (`sha512`, `scrypt.Key`, `sio.Decrypt`, `http.NewRequest`)
are fields of `Lib`.  Every call the package makes into another component
is recorded in `World.trace`, so that "how many times" questions are
questions about that list.
-/

namespace Filehitch

/-! ## Values -/

/-- Byte strings; every element stands for one byte. -/
abbrev Bytes := List Nat

/-- Error values the package can see. -/
inductive Err where
  | ENOENT
  | EACCES
  | EIO
  | EXDEV
  | EPERM
  | ENOSPC
  | EEXIST
  | EOF
  | unexpectedEOF
  | unknownUser (name : String)
  | unknownGroup (name : String)
  | transport (msg : String)
  | unexpectedStatus (got : Int) (expected : Int)
  | wrapped (msg : String) (inner : Err)
  | other (msg : String)
  deriving DecidableEq, Repr

/-- The test `os.IsNotExist`: true of the "no such file" error only (it does not
unwrap errors built by `fmt.Errorf`). -/
def isNotExist : Err → Bool
  | .ENOENT => true
  | _ => false

/-- An `io.Reader`: the bytes it delivers, then either end of file (`none`) or a
read error. -/
structure Stream where
  data : Bytes
  err : Option Err
  deriving DecidableEq, Repr

/-- A file of the file table: contents, numeric owner and group, mode bits. -/
structure FileNode where
  data : Bytes
  uid : Int
  gid : Int
  mode : Nat
  deriving DecidableEq, Repr

/-- Result of `user.Lookup`. -/
structure User where
  Uid : String
  Gid : String
  deriving DecidableEq, Repr

/-- Result of `user.LookupGroup`. -/
structure Group where
  Gid : String
  deriving DecidableEq, Repr

/-! ## Configuration (filehitch.go, lines 37-78) -/

structure Schedule where
  Expression : String
  Jitter : Int
  deriving DecidableEq, Repr

structure Decryption where
  Password : Bytes
  deriving DecidableEq, Repr

/-- File permissions; `Mode` is the `fs.FileMode` that `main` builds from the octal
string of the configuration. -/
structure Permissions where
  Mode : Nat
  Owner : String
  Group : String
  deriving DecidableEq, Repr

structure File where
  Path : String
  Permissions : Permissions
  deriving DecidableEq, Repr

structure Trigger where
  Command : List String
  User : String
  Group : String
  CWD : String
  deriving DecidableEq, Repr

structure Expect where
  Code : Int
  deriving DecidableEq, Repr

/-- The HTTP resource (http_resource.go, lines 26-36); the last two fields are
the cache fields. -/
structure HTTPResource where
  URL : String
  Method : String
  Headers : List (String × List String)
  Expect : Expect
  Timeout : Nat
  Body : Bytes
  MaxAttempts : Int
  headerIfNoneMatch : String
  headerIfModifiedSince : String
  deriving DecidableEq, Repr

/-- The object-store resource (s3_resource.go, lines 24-33); `objInfoETag` is
the cache field. -/
structure S3Resource where
  Endpoint : String
  AccessKeyID : String
  SecretAccessKey : String
  Bucket : String
  Region : String
  SSL : Bool
  Object : String
  objInfoETag : String
  deriving DecidableEq, Repr

/-- The resource of a job; `Type_` is the field `Type`, and the two resource
pointers may be nil. -/
structure Resource where
  Type_ : String
  Decryption : Decryption
  HTTP : Option HTTPResource
  S3 : Option S3Resource
  deriving DecidableEq, Repr

structure Job where
  Name : String
  Schedule : Schedule
  Resource : Resource
  File : File
  Trigger : Trigger
  deriving DecidableEq, Repr

/-! ## The environment -/

/-- An HTTP request as handed to `http.Client.Do`. -/
structure Request where
  method : String
  url : String
  header : List (String × String)
  body : Bytes
  deriving DecidableEq, Repr

/-- An HTTP response: status code, `Header.Get`, and the body stream. -/
structure Response where
  status : Int
  header : String → String
  body : Stream

/-- What one `http.Client.Do` gives back. -/
inductive HttpOutcome where
  | transportErr (e : Err)
  | response (r : Response)

/-- Calls that leave the package, in the order they are made. -/
inductive Event where
  | log (level : String) (msg : String)
  | sleep (nanoseconds : Int)
  | httpDo (attempt : Int) (req : Request)
  | updateFile (src : Stream)
  | finalizePlacement
  | minioNew
  | statObject
  | getObject
  | executeTrigger
  | cmdRun (argv : List String) (uid : Nat) (gid : Nat) (cwd : String)
  deriving DecidableEq, Repr

/-- Outcome of each system call of one `UpdateFile` that may fail; `none` is
success.  `writeTemp` and `readTarget` carry the number of bytes transferred
before the failure. -/
structure Faults where
  createTemp : Option Err
  chmodTemp : Option Err
  writeTemp : Option (Nat × Err)
  openTarget : Option Err
  readTarget : Option (Nat × Err)
  rename : Option Err
  chown : Option Err
  chmod : Option Err
  remove : Option Err
  deriving DecidableEq, Repr

/-- No system call fails. -/
def Faults.none : Faults :=
  ⟨Option.none, Option.none, Option.none, Option.none, Option.none,
   Option.none, Option.none, Option.none, Option.none⟩

/-- The world outside the package.  `files` is the file table, `mount` gives
the filesystem a path lives on, `tmpDir` is `os.TempDir()`, `randNames` the
random suffixes `os.CreateTemp` draws, `httpDo` the outcome of the request of
each attempt, `trace` the calls made so far. -/
structure World where
  files : String → Option FileNode
  mount : String → Nat
  tmpDir : String
  randNames : List String
  euid : Int
  egid : Int
  umask : Nat
  users : String → Except Err User
  groups : String → Except Err Group
  faults : Faults
  randIntn : Int → Int
  httpDo : Int → Request → HttpOutcome
  minioNew : Option Err
  statObject : Except Err String
  getObject : Except Err Stream
  cmdRun : Option Err
  trace : List Event

/-- Record a call. -/
def World.emit (w : World) (e : Event) : World :=
  { w with trace := w.trace ++ [e] }

/-- Replace the file table. -/
def World.setFiles (w : World) (f : String → Option FileNode) : World :=
  { w with files := f }

/-- The functions of imported libraries. `sioDecrypt key src` gives the plaintext
produced and the error, if any, that ended decryption. `newRequestErr method url`
is the validation of `http.NewRequest`. -/
structure Lib where
  sha512 : Bytes → Bytes
  scryptKey : Bytes → Bytes → Nat → Nat → Nat → Nat → Except Err Bytes
  sioDecrypt : Bytes → Stream → Bytes × Option Err
  newRequestErr : String → String → Option Err

/-! ## Library calls with a fixed meaning -/

/-- The value returned by `strconv.Atoi` (the error is dropped by the callers): 0 on
a syntax error, the nearest 64-bit bound on a range error. -/
def atoi (s : String) : Int :=
  let cs := s.toList
  let neg := cs.head? == some '-'
  let ds := if cs.head? == some '-' ∨ cs.head? == some '+' then cs.tail else cs
  if ds.isEmpty ∨ !(ds.all Char.isDigit) then 0
  else
    let n : Nat := ds.foldl (fun a c => 10 * a + (c.toNat - 48)) 0
    if neg then (if n > 2 ^ 63 then -(2 ^ 63 : Int) else -(n : Int))
    else (if n > 2 ^ 63 - 1 then (2 ^ 63 - 1 : Int) else (n : Int))

/-- Path join of `os.CreateTemp`. -/
def joinPath (dir : String) (name : String) : String :=
  if dir.length > 0 ∧ dir.back == '/' then dir ++ name else dir ++ "/" ++ name

/-- Function update of the file table. -/
def setFile (f : String → Option FileNode) (p : String) (n : Option FileNode) :
    String → Option FileNode :=
  fun q => if q = p then n else f q

/-- The call `os.CreateTemp("", pattern)`: the first candidate name in `os.TempDir()`
that does not exist is created exclusively, empty, owned by the process, with
mode 0600 less the umask. -/
def osCreateTemp (w : World) (pattern : String) : Except Err String × World :=
  match w.faults.createTemp with
  | some e => (.error e, w)
  | none =>
    match (w.randNames.map (fun r => joinPath w.tmpDir (pattern ++ r))).find?
        (fun p => (w.files p).isNone) with
    | none => (.error .EEXIST, w)
    | some p =>
      (.ok p, w.setFiles (setFile w.files p (some ⟨[], w.euid, w.egid, 0o600 &&& (0o777 ^^^ (w.umask &&& 0o777))⟩)))

/-- The mode bits `os.Chmod` hands to the system for a `fs.FileMode` (the function
`syscallMode` of package `os`): the nine permission bits, and setuid, setgid and sticky
where the flags `ModeSetuid` (bit 23), `ModeSetgid` (bit 22) and `ModeSticky` (bit 20)
of the `fs.FileMode` are set.  No other bit of the `fs.FileMode` reaches the file. -/
def syscallMode (mode : Nat) : Nat :=
  (mode &&& 0o777) |||
    (if mode &&& 2 ^ 23 ≠ 0 then 0o4000 else 0) |||
    (if mode &&& 2 ^ 22 ≠ 0 then 0o2000 else 0) |||
    (if mode &&& 2 ^ 20 ≠ 0 then 0o1000 else 0)

/-- The call `os.Chmod(name, mode)` with its failure given explicitly; `mode` is a
`fs.FileMode`, a `uint32`, and the file gets `syscallMode` of it. -/
def osChmodWith (fault : Option Err) (w : World) (name : String) (mode : Nat) :
    Option Err × World :=
  match fault with
  | some e => (some e, w)
  | none =>
    match w.files name with
    | none => (some .ENOENT, w)
    | some n =>
      (none, w.setFiles (setFile w.files name
        (some { n with mode := syscallMode (mode % 2 ^ 32) })))

/-- The id a file has after `os.Chown` asked for `new`: -1 leaves `old` as it is. -/
def chownId (new : Int) (old : Int) : Int :=
  if new = -1 then old else new

/-- The call `os.Chown(name, uid, gid)`. -/
def osChown (w : World) (name : String) (uid : Int) (gid : Int) : Option Err × World :=
  match w.faults.chown with
  | some e => (some e, w)
  | none =>
    match w.files name with
    | none => (some .ENOENT, w)
    | some n =>
      (none, w.setFiles (setFile w.files name
        (some { n with uid := chownId uid n.uid, gid := chownId gid n.gid })))

/-- The call `os.Rename(old, new)`: fails across filesystems, otherwise the node
of `old` becomes the node of `new` in one step. -/
def osRename (w : World) (old : String) (new : String) : Option Err × World :=
  match w.faults.rename with
  | some e => (some e, w)
  | none =>
    match w.files old with
    | none => (some .ENOENT, w)
    | some n =>
      if w.mount old ≠ w.mount new then (some .EXDEV, w)
      else if old = new then (none, w)
      else (none, w.setFiles (setFile (setFile w.files old none) new (some n)))

/-- The call `os.Remove(name)`. -/
def osRemove (w : World) (name : String) : Option Err × World :=
  match w.faults.remove with
  | some e => (some e, w)
  | none =>
    match w.files name with
    | none => (some .ENOENT, w)
    | some _ => (none, w.setFiles (setFile w.files name none))

/-- The call `os.Open(path)`: the failure of open, or the file opened. -/
def osOpen (w : World) (path : String) : Except Err FileNode :=
  match w.faults.openTarget with
  | some e => .error e
  | none =>
    match w.files path with
    | none => .error .ENOENT
    | some n => .ok n

/-- Appending to an open file (the temporary file is written from empty). -/
def writeTo (w : World) (name : String) (bytes : Bytes) : World :=
  match w.files name with
  | none => w
  | some n => w.setFiles (setFile w.files name (some { n with data := n.data ++ bytes }))

/-- The call `io.Copy(io.MultiWriter(file, h), src)` where `src` delivers `data` and
then ends with `srcErr`: the bytes that reached both writers and the error. -/
def copyOut (w : World) (data : Bytes) (srcErr : Option Err) : Bytes × Option Err :=
  match w.faults.writeTemp with
  | some (n, e) => if n < data.length then (data.take n, some e) else (data, srcErr)
  | none => (data, srcErr)

/-! ## The atomic file updater (filehitch.go, lines 136-249) -/

/-- `CreateTempFile` (lines 178-184): the file, when one was created, and the error. -/
def CreateTempFile (w : World) : Option String × Option Err × World :=
  match osCreateTemp w "rrchanged-" with
  | (.error e, w1) => (none, some e, w1)
  | (.ok name, w1) =>
    let r := osChmodWith w1.faults.chmodTemp w1 name 0o600
    (some name, r.1, r.2)

/-- `WriteToFileAndChecksum` (lines 208-213). -/
def WriteToFileAndChecksum (lib : Lib) (w : World) (file : String) (src : Stream) :
    Bytes × Option Err × World :=
  let r := copyOut w src.data src.err
  (lib.sha512 r.1, r.2, writeTo w file r.1)

/-- The call `io.ReadFull(src, salt)` for a 32-byte salt: the salt and the rest of the
stream, or the error. -/
def readSalt (src : Stream) : Except Err (Bytes × Stream) :=
  if 32 ≤ src.data.length then .ok (src.data.take 32, ⟨src.data.drop 32, src.err⟩)
  else
    match src.err with
    | some e => .error e
    | none => if src.data.length = 0 then .error .EOF else .error .unexpectedEOF

/-- `DecryptWriteToFileAndChecksum` (lines 186-206); on an error the sum is nil. -/
def DecryptWriteToFileAndChecksum (lib : Lib) (w : World) (file : String) (src : Stream)
    (password : Bytes) : Bytes × Option Err × World :=
  match readSalt src with
  | .error e => ([], some (.wrapped "failed to read salt" e), w)
  | .ok (salt, rest) =>
    match lib.scryptKey password salt 32768 16 1 32 with
    | .error e => ([], some (.wrapped "failed to derive key from password and salt" e), w)
    | .ok key =>
      let d := lib.sioDecrypt key rest
      let r := copyOut w d.1 d.2
      match r.2 with
      | some e => ([], some (.wrapped "failed to decrypt" e), writeTo w file r.1)
      | none => (lib.sha512 r.1, none, writeTo w file r.1)

/-- The checksum pipeline as `Job.UpdateFile` runs it (lines 145-150): with a
password the stream is decrypted, without one it is copied. -/
def checksumPipeline (lib : Lib) (job : Job) (w : World) (file : String) (src : Stream) :
    Bytes × Option Err × World :=
  if job.Resource.Decryption.Password.length > 0
  then DecryptWriteToFileAndChecksum lib w file src job.Resource.Decryption.Password
  else WriteToFileAndChecksum lib w file src

/-- `Job.CalculateFileChecksum` (lines 215-225): nil sum when open fails, otherwise
the sum of the bytes read together with the read error, if any. -/
def CalculateFileChecksum (lib : Lib) (job : Job) (w : World) : Bytes × Option Err :=
  match osOpen w job.File.Path with
  | .error e => ([], some e)
  | .ok f =>
    match w.faults.readTarget with
    | some (n, e) =>
      if n ≤ f.data.length then (lib.sha512 (f.data.take n), some e)
      else (lib.sha512 f.data, none)
    | none => (lib.sha512 f.data, none)

/-- `Job.FinalizePlacement` (lines 227-249). -/
def FinalizePlacement (job : Job) (name : String) (w : World) : Option Err × World :=
  let w0 := w.emit .finalizePlacement
  match osRename w0 name job.File.Path with
  | (some e, w1) => (some e, w1)
  | (none, w1) =>
    match w1.users job.File.Permissions.Owner with
    | .error e => (some e, w1)
    | .ok u =>
      match w1.groups job.File.Permissions.Group with
      | .error e => (some e, w1)
      | .ok g =>
        let uid := atoi u.Uid
        let gid := atoi g.Gid
        match osChown w1 job.File.Path uid gid with
        | (some e, w2) => (some e, w2)
        | (none, w2) => osChmodWith w2.faults.chmod w2 job.File.Path job.File.Permissions.Mode

/-- The second half of `Job.UpdateFile` (lines 154-175), entered with the temporary
file `name` written and its sum `tempHash`: promote or discard. -/
def placeOrDiscard (lib : Lib) (job : Job) (name : String) (tempHash : Bytes) (w : World) :
    Bool × Option Err × World :=
  let c := CalculateFileChecksum lib job w
  if c.2.any isNotExist then
    match FinalizePlacement job name w with
    | (none, w4) => (true, none, w4)
    | (some e, w4) => (false, some e, w4)
  else if tempHash ≠ c.1 then
    match FinalizePlacement job name w with
    | (none, w4) => (true, none, w4)
    | (some e, w4) => (false, some e, w4)
  else
    match osRemove w name with
    | (none, w4) => (false, none, w4.emit (.log "debug" "Removed temporary file"))
    | (some e, w4) => (false, some e, w4)

/-- `Job.UpdateFile` (lines 136-176): `(changed, err)` and the world afterwards.  The
second case cannot occur: `CreateTempFile` returns no file only with an error. -/
def UpdateFile (lib : Lib) (job : Job) (src : Stream) (w : World) :
    Bool × Option Err × World :=
  match CreateTempFile (w.emit (.updateFile src)) with
  | (_, some e, w1) => (false, some e, w1)
  | (none, none, w1) => (false, none, w1)
  | (some name, none, w1) =>
    let w2 := w1.emit (.log "debug" "Created temporary file")
    match checksumPipeline lib job w2 name src with
    | (_, some e, w3) => (false, some e, w3)
    | (tempHash, none, w3) => placeOrDiscard lib job name tempHash w3

/-! ## The HTTP fetcher (http_resource.go, lines 42-109) -/

/-- `HTTPResource.AddHeaders` (lines 103-109). -/
def AddHeaders (resource : HTTPResource) (req : Request) : Request :=
  resource.Headers.foldl
    (fun rq kv => kv.2.foldl (fun rq1 v => { rq1 with header := rq1.header ++ [(kv.1, v)] }) rq)
    req

/-- The request of one attempt (lines 48-62), given that `http.NewRequest` succeeded. -/
def conditionalRequest (r : HTTPResource) : Request :=
  let req0 : Request := ⟨r.Method, r.URL, [], r.Body⟩
  let req1 : Request :=
    if r.headerIfNoneMatch ≠ "" then
      { req0 with header := req0.header ++ [("If-None-Match", r.headerIfNoneMatch)] }
    else req0
  let req2 : Request :=
    if r.Method = "GET" ∨ r.Method = "HEAD" then
      (if r.headerIfModifiedSince ≠ "" then
        { req1 with header := req1.header ++ [("If-Modified-Since", r.headerIfModifiedSince)] }
      else req1)
    else req1
  AddHeaders r req2

/-- The duration `time.Second`, in nanoseconds. -/
def second : Int := 1000000000

/-- The loop of `Job.HandleHTTPResource` (lines 46-100).  The first argument counts
the iterations that `attempt <= MaxAttempts` still allows: the loop is entered with
`MaxAttempts.toNat` at attempt 1, so the count is 0 exactly when the condition of the
`for` fails.  `err` is the error variable as the previous iteration left it.  The
result is the resource with its cache fields, `changed`, `err` and the world. -/
def httpAttempts (lib : Lib) (job : Job) (r : HTTPResource) :
    Nat → Int → Option Err → World → HTTPResource × Bool × Option Err × World
  | 0, _, err, w => (r, false, err, w)
  | n + 1, attempt, _, w =>
    match lib.newRequestErr r.Method r.URL with
    | some e => (r, false, some e, w)
    | none =>
      let req := conditionalRequest r
      let w1 := w.emit (.httpDo attempt req)
      match w.httpDo attempt req with
      | .transportErr e =>
        if attempt < r.MaxAttempts then
          httpAttempts lib job r n (attempt + 1) (some e)
            ((w1.emit (.log "warn" "Failed HTTP request, retrying")).emit (.sleep second))
        else (r, false, some e, w1.emit (.log "error" "Failed HTTP request"))
      | .response resp =>
        if resp.status = 304 then (r, false, none, w1)
        else if resp.status ≠ r.Expect.Code then
          let e := Err.unexpectedStatus resp.status r.Expect.Code
          if attempt < r.MaxAttempts then
            httpAttempts lib job r n (attempt + 1) (some e)
              ((w1.emit (.log "warn" "Unexpected HTTP status code, retyring")).emit (.sleep second))
          else (r, false, some e, w1.emit (.log "error" "Unexpected HTTP status code"))
        else
          match UpdateFile lib job resp.body w1 with
          | (changed, some e, w2) => (r, changed, some e, w2)
          | (changed, none, w2) =>
            let r1 := { r with headerIfNoneMatch := resp.header "ETag" }
            let r2 := if r.Method = "GET" ∨ r.Method = "HEAD"
              then { r1 with headerIfModifiedSince := resp.header "Date" } else r1
            (r2, changed, none, w2)

/-- Store a resource back into the job. -/
def Job.setHTTP (job : Job) (r : HTTPResource) : Job :=
  { job with Resource := { job.Resource with HTTP := some r } }

/-- Store a resource back into the job. -/
def Job.setS3 (job : Job) (s : S3Resource) : Job :=
  { job with Resource := { job.Resource with S3 := some s } }

/-- `Job.HandleHTTPResource` (lines 42-101): the job with its cache fields, `changed`,
`err`, and the world; `none` is the nil-pointer panic of a job without HTTP resource. -/
def HandleHTTPResource (lib : Lib) (job : Job) (w : World) :
    Option (Job × Bool × Option Err × World) :=
  match job.Resource.HTTP with
  | none => none
  | some r =>
    let x := httpAttempts lib job r r.MaxAttempts.toNat 1 none w
    some (job.setHTTP x.1, x.2.1, x.2.2.1, x.2.2.2)

/-! ## The object-store fetcher (s3_resource.go, lines 35-62) -/

/-- `Job.HandleS3Resource`; `none` is the nil-pointer panic of a job without S3
resource. -/
def HandleS3Resource (lib : Lib) (job : Job) (w : World) :
    Option (Job × Bool × Option Err × World) :=
  match job.Resource.S3 with
  | none => none
  | some s =>
    let w1 := w.emit .minioNew
    match w.minioNew with
    | some e => some (job, false, some e, w1)
    | none =>
      let w2 := w1.emit .statObject
      match w.statObject with
      | .error e => some (job, false, some e, w2)
      | .ok etag =>
        if s.objInfoETag = etag then some (job, false, none, w2)
        else
          let w3 := w2.emit .getObject
          match w.getObject with
          | .error e => some (job, false, some e, w3)
          | .ok obj =>
            match UpdateFile lib job obj w3 with
            | (changed, some e, w4) => some (job, changed, some e, w4)
            | (changed, none, w4) =>
              some (job.setS3 { s with objInfoETag := etag }, changed, none, w4)

/-! ## Trigger and orchestration (filehitch.go, lines 102-134 and 251-273) -/

/-- Two's-complement wrap of a 64-bit `int`. -/
def wrap64 (x : Int) : Int := (x + 2 ^ 63) % 2 ^ 64 - 2 ^ 63

/-- `Job.ExecuteTrigger` (lines 251-273); `none` is the index panic on an empty command. -/
def ExecuteTrigger (job : Job) (w : World) : Option (Option Err × World) :=
  let w0 := w.emit .executeTrigger
  match job.Trigger.Command with
  | [] => none
  | c :: args =>
    match w.users job.Trigger.User with
    | .error e => some (some e, w0)
    | .ok u =>
      match w.groups job.Trigger.Group with
      | .error e => some (some e, w0)
      | .ok g =>
        let uid := atoi u.Uid
        let gid := atoi g.Gid
        let w1 := w0.emit (.log "debug" "Executing trigger command")
        some (w.cmdRun,
          w1.emit (.cmdRun (c :: args) (uid % 2 ^ 32).toNat (gid % 2 ^ 32).toNat job.Trigger.CWD))

/-- The jitter delay of `Job.Run` (lines 103-107); `none` is the panic of `rand.Intn` on
a bound that is not positive. -/
def jitterDelay (job : Job) (w : World) : Option World :=
  if job.Schedule.Jitter > 0 then
    let bound := wrap64 (job.Schedule.Jitter * 1000)
    if bound ≤ 0 then none
    else
      let jitter := wrap64 (1000000 * w.randIntn bound)
      some ((w.emit (.log "debug" "Delaying due to jitter")).emit (.sleep jitter))
  else some w

/-- The fetch of `Job.Run` (lines 113-118): the `switch` on the resource type. -/
def fetch (lib : Lib) (job : Job) (w : World) : Option (Job × Bool × Option Err × World) :=
  if job.Resource.Type_ = "http" then HandleHTTPResource lib job w
  else if job.Resource.Type_ = "s3" then HandleS3Resource lib job w
  else some (job, false, none, w)

/-- `Job.Run` (lines 102-134): the job and the world after one firing. -/
def Run (lib : Lib) (job : Job) (w : World) : Option (Job × World) :=
  match jitterDelay job w with
  | none => none
  | some w0 =>
    let w1 := w0.emit (.log "info" "Starting job")
    match fetch lib job w1 with
    | none => none
    | some (job1, _, some _, w2) => some (job1, w2.emit (.log "error" "Failed job"))
    | some (job1, false, none, w2) =>
      some (job1, w2.emit (.log "info" "Finished job, file not updated"))
    | some (job1, true, none, w2) =>
      if job1.Trigger.Command.length > 0 then
        match ExecuteTrigger job1 w2 with
        | none => none
        | some (some _, w3) =>
          some (job1, (w3.emit (.log "error" "Failed to execute trigger")).emit
            (.log "info" "Finished job, file updated"))
        | some (none, w3) => some (job1, w3.emit (.log "info" "Finished job, file updated"))
      else some (job1, w2.emit (.log "info" "Finished job, file updated"))

/-! ## Notions used to state the properties -/

/-- The plaintext of a stream: the stream itself when the job has no password, otherwise
what `sio.Decrypt` produces from the bytes after the 32-byte salt under the key derived
from password and salt (nothing when salt or key cannot be had). -/
def decryptedBytes (lib : Lib) (job : Job) (src : Stream) : Bytes :=
  if job.Resource.Decryption.Password.length > 0 then
    match readSalt src with
    | .error _ => []
    | .ok (salt, rest) =>
      match lib.scryptKey job.Resource.Decryption.Password salt 32768 16 1 32 with
      | .error _ => []
      | .ok key => (lib.sioDecrypt key rest).1
  else src.data

/-- The world in which `Job.UpdateFile` compares sums: the temporary file `name` holds
`bytes` with mode 0600, and the call and its first log line are on the trace. -/
def stagedWorld (w : World) (src : Stream) (name : String) (bytes : Bytes) : World :=
  { w with
    files := setFile w.files name (some ⟨bytes, w.euid, w.egid, 0o600⟩),
    trace := w.trace ++ [.updateFile src, .log "debug" "Created temporary file"] }

/-- Whether an event is a request sent by `http.Client.Do`. -/
def Event.isRequest : Event → Bool
  | .httpDo _ _ => true
  | _ => false

/-- Whether an event is a `time.Sleep`. -/
def Event.isSleep : Event → Bool
  | .sleep _ => true
  | _ => false

/-- Whether an event is a call of `Job.UpdateFile`. -/
def Event.isUpdateFile : Event → Bool
  | .updateFile _ => true
  | _ => false

/-- Whether an event is a log line. -/
def Event.isLog : Event → Bool
  | .log _ _ => true
  | _ => false

/-- The world after further calls `T`. -/
def World.extend (w : World) (T : List Event) : World :=
  { w with trace := w.trace ++ T }

/-- The requests and waits of `k` attempts in a row that begin with attempt `a`: one
request per attempt, and one second of sleep between two consecutive attempts. -/
def attemptEvents (req : Request) : Nat → Int → List Event
  | 0, _ => []
  | 1, a => [.httpDo a req]
  | k + 2, a => .httpDo a req :: .sleep second :: attemptEvents req (k + 1) (a + 1)

/-- An attempt that fails: a transport error, or a response whose status is neither
304 nor the expected code. -/
def HttpOutcome.failed (code : Int) : HttpOutcome → Bool
  | .transportErr _ => true
  | .response r => decide (r.status ≠ 304 ∧ r.status ≠ code)

/-- The error of a failed attempt: the transport error, or the error built from the
unexpected status. -/
def HttpOutcome.failure (code : Int) : HttpOutcome → Err
  | .transportErr e => e
  | .response r => .unexpectedStatus r.status code

/-- The cache fields of the HTTP resource of a job. -/
def httpCache (job : Job) : Option (String × String) :=
  job.Resource.HTTP.map (fun r => (r.headerIfNoneMatch, r.headerIfModifiedSince))

/-- The cache field of the object-store resource of a job. -/
def s3Cache (job : Job) : Option String :=
  job.Resource.S3.map (fun s => s.objInfoETag)

/-- Whether an event is a call of `Job.ExecuteTrigger`. -/
def Event.isTrigger : Event → Bool
  | .executeTrigger => true
  | _ => false

/-- Whether the second half of `Job.UpdateFile` promotes the temporary file
(lines 154-170): the checksum of the target ended with "does not exist", or the two
sums differ. -/
def promotes (lib : Lib) (job : Job) (tempHash : Bytes) (w : World) : Bool :=
  (CalculateFileChecksum lib job w).2.any isNotExist ||
    decide (tempHash ≠ (CalculateFileChecksum lib job w).1)

/-- A step of promotion: its error, if it fails, and the world after it. -/
abbrev Step := World → Option Err × World

/-- Steps performed in order, stopping at the first one that fails and returning its
error. -/
def firstFailure : List Step → World → Option Err × World
  | [], w => (none, w)
  | step :: rest, w =>
    match step w with
    | (some e, w1) => (some e, w1)
    | (none, w1) => firstFailure rest w1

/-- The promotion as the specification words it: rename the temporary file onto the
target, resolve the owner, resolve the group, set the ownership to the resolved ids,
set the mode. -/
def promotionSteps (job : Job) (name : String) : List Step :=
  [fun w => osRename w name job.File.Path,
   fun w => match w.users job.File.Permissions.Owner with
     | .error e => (some e, w)
     | .ok _ => (none, w),
   fun w => match w.groups job.File.Permissions.Group with
     | .error e => (some e, w)
     | .ok _ => (none, w),
   fun w => match w.users job.File.Permissions.Owner, w.groups job.File.Permissions.Group with
     | .ok u, .ok g => osChown w job.File.Path (atoi u.Uid) (atoi g.Gid)
     | _, _ => (none, w),
   fun w => osChmodWith w.faults.chmod w job.File.Path job.File.Permissions.Mode]

/-! ## Sample data -/

/-- A stand-in for the imported libraries, used to run the definitions on concrete
inputs: a 64-byte sum made of the length and the byte sum, a key made of password and
salt, a cipher that is the identity, a request constructor that never fails. -/
def sampleLib : Lib :=
  ⟨fun b => List.replicate 62 0 ++ [b.length % 256, b.sum % 256],
   fun pw salt _ _ _ _ => .ok (pw ++ salt),
   fun _ src => (src.data, src.err),
   fun _ _ => none⟩

/-- A GET resource with three attempts and empty cache fields. -/
def sampleHTTP : HTTPResource :=
  ⟨"https://example.org/motd", "GET", [], ⟨200⟩, 0, [], 3, "", ""⟩

/-- An object-store resource whose cached entity tag is `e1`. -/
def sampleS3 : S3Resource :=
  ⟨"s3.example.org", "id", "secret", "bucket", "", true, "motd", "e1"⟩

/-- A job that keeps `/etc/motd` up to date and runs a command afterwards. -/
def sampleJob : Job :=
  ⟨"motd", ⟨"0 * * * * *", 0⟩, ⟨"http", ⟨[]⟩, some sampleHTTP, some sampleS3⟩,
   ⟨"/etc/motd", ⟨0o644, "app", "app"⟩⟩, ⟨["/bin/reload"], "root", "root", "/"⟩⟩

/-- The user database of the sample world. -/
def sampleUsers (n : String) : Except Err User :=
  if n = "app" then .ok ⟨"1000", "1000"⟩
  else if n = "root" then .ok ⟨"0", "0"⟩
  else .error (.unknownUser n)

/-- The group database of the sample world. -/
def sampleGroups (n : String) : Except Err Group :=
  if n = "app" then .ok ⟨"1000"⟩
  else if n = "root" then .ok ⟨"0"⟩
  else .error (.unknownGroup n)

/-- A world with one file, `/etc/motd` holding the bytes 104, 105, a single filesystem,
no failing system call and a server that refuses every connection. -/
def sampleWorld : World :=
  ⟨fun p => if p = "/etc/motd" then some ⟨[104, 105], 0, 0, 0o644⟩ else none,
   fun _ => 0, "/tmp", ["1"], 0, 0, 0o022, sampleUsers, sampleGroups, Faults.none,
   fun _ => 0, fun _ _ => .transportErr (.transport "connection refused"),
   none, .ok "e1", .ok ⟨[104, 105], none⟩, none, []⟩

/-- The sample world without the target file. -/
def emptyWorld : World :=
  { sampleWorld with files := fun _ => none }

/-- The sample world in which `os.Remove` fails. -/
def removeFailsWorld : World :=
  { sampleWorld with faults := { Faults.none with remove := some .EPERM } }

/-- The sample job with the configured mode `4755`, which `main` stores as the
`fs.FileMode` of that octal value. -/
def setuidJob : Job :=
  { sampleJob with File := ⟨"/etc/motd", ⟨0o4755, "app", "app"⟩⟩ }

/-- The sample job with an owner the user database does not know. -/
def ghostJob : Job :=
  { sampleJob with File := ⟨"/etc/motd", ⟨0o644, "ghost", "app"⟩⟩ }

/-- The sample world in which `/etc/motd` exists but cannot be opened. -/
def unreadableWorld : World :=
  { sampleWorld with faults := { Faults.none with openTarget := some .EACCES } }

/-- The sample world with `/tmp` on a filesystem of its own. -/
def splitWorld : World :=
  { sampleWorld with mount := fun p => if "/tmp/".toList.isPrefixOf p.toList then 1 else 0 }

/-- A response with status 200, entity tag `v2`, and the given body. -/
def okResponse (body : Bytes) : Response :=
  ⟨200, fun k => if k = "ETag" then "v2" else if k = "Date" then "Tue, 03 Nov 2026 10:00:00 GMT"
    else "", ⟨body, none⟩⟩

/-- A response with status 304 and no body. -/
def notModified : Response :=
  ⟨304, fun k => if k = "ETag" then "v2" else "", ⟨[], none⟩⟩

/-- The sample world with a server that answers every request with the bytes the
target already holds. -/
def sameBodyWorld : World :=
  { sampleWorld with httpDo := fun _ _ => .response (okResponse [104, 105]) }

/-- The sample world with a server that answers every request with new bytes. -/
def newBodyWorld : World :=
  { sampleWorld with httpDo := fun _ _ => .response (okResponse [104, 106]) }

/-- The sample world with a server that refuses the first connection, answers the
second request with status 500, and the third with status 304. -/
def thirdTimeWorld : World :=
  { sampleWorld with httpDo := (fun k _ =>
      if k = 1 then HttpOutcome.transportErr (.transport "connection refused")
      else if k = 2 then HttpOutcome.response ⟨500, fun _ => "", ⟨[], none⟩⟩
      else HttpOutcome.response notModified) }

/-- The sample world with an object store whose entity tag is `e2`, not the cached
`e1`, while the object still holds the bytes of the target. -/
def newTagWorld : World :=
  { sampleWorld with statObject := .ok "e2" }

/-- The world of new bytes in which the trigger command fails. -/
def failingTriggerWorld : World :=
  { newBodyWorld with cmdRun := some (.other "exit status 1") }

/-- The sample world in which `os.Rename` fails. -/
def renameFailsWorld : World :=
  { sampleWorld with faults := { Faults.none with rename := some .EACCES } }

/-- The sample world in which the last `os.Chmod` fails. -/
def chmodFailsWorld : World :=
  { sampleWorld with faults := { Faults.none with chmod := some .EPERM } }

/-! ## Frame lemmas -/

@[simp] theorem emit_files (w : World) (e : Event) : (w.emit e).files = w.files := rfl
@[simp] theorem emit_faults (w : World) (e : Event) : (w.emit e).faults = w.faults := rfl
@[simp] theorem emit_mount (w : World) (e : Event) : (w.emit e).mount = w.mount := rfl
@[simp] theorem emit_users (w : World) (e : Event) : (w.emit e).users = w.users := rfl
@[simp] theorem emit_groups (w : World) (e : Event) : (w.emit e).groups = w.groups := rfl
@[simp] theorem emit_tmpDir (w : World) (e : Event) : (w.emit e).tmpDir = w.tmpDir := rfl
@[simp] theorem emit_randNames (w : World) (e : Event) : (w.emit e).randNames = w.randNames := rfl
@[simp] theorem emit_euid (w : World) (e : Event) : (w.emit e).euid = w.euid := rfl
@[simp] theorem emit_egid (w : World) (e : Event) : (w.emit e).egid = w.egid := rfl
@[simp] theorem emit_umask (w : World) (e : Event) : (w.emit e).umask = w.umask := rfl
@[simp] theorem emit_httpDo (w : World) (e : Event) : (w.emit e).httpDo = w.httpDo := rfl
@[simp] theorem emit_minioNew (w : World) (e : Event) : (w.emit e).minioNew = w.minioNew := rfl
@[simp] theorem emit_statObject (w : World) (e : Event) :
    (w.emit e).statObject = w.statObject := rfl
@[simp] theorem emit_getObject (w : World) (e : Event) : (w.emit e).getObject = w.getObject := rfl
@[simp] theorem emit_cmdRun (w : World) (e : Event) : (w.emit e).cmdRun = w.cmdRun := rfl
@[simp] theorem emit_trace (w : World) (e : Event) : (w.emit e).trace = w.trace ++ [e] := rfl

@[simp] theorem setFiles_files (w : World) (f : String → Option FileNode) :
    (w.setFiles f).files = f := rfl
@[simp] theorem setFiles_faults (w : World) (f : String → Option FileNode) :
    (w.setFiles f).faults = w.faults := rfl
@[simp] theorem setFiles_mount (w : World) (f : String → Option FileNode) :
    (w.setFiles f).mount = w.mount := rfl
@[simp] theorem setFiles_users (w : World) (f : String → Option FileNode) :
    (w.setFiles f).users = w.users := rfl
@[simp] theorem setFiles_groups (w : World) (f : String → Option FileNode) :
    (w.setFiles f).groups = w.groups := rfl
@[simp] theorem setFiles_trace (w : World) (f : String → Option FileNode) :
    (w.setFiles f).trace = w.trace := rfl
@[simp] theorem setFiles_httpDo (w : World) (f : String → Option FileNode) :
    (w.setFiles f).httpDo = w.httpDo := rfl

@[simp] theorem setFile_same (f : String → Option FileNode) (p : String) (n : Option FileNode) :
    setFile f p n p = n := by
  simp [setFile]

theorem setFile_other (f : String → Option FileNode) (p q : String) (n : Option FileNode)
    (h : q ≠ p) : setFile f p n q = f q := by
  simp [setFile, h]

theorem setFile_twice (f : String → Option FileNode) (p : String) (a b : Option FileNode) :
    setFile (setFile f p a) p b = setFile f p b := by
  funext q
  by_cases h : q = p <;> simp [setFile, h]

/-- A number below a power of two has not the bit of that power. -/
theorem land_two_pow_of_lt (m k : Nat) (h : m < 2 ^ k) : m &&& 2 ^ k = 0 := by
  apply Nat.eq_of_testBit_eq
  intro i
  rw [Nat.testBit_and, Nat.zero_testBit]
  by_cases hi : i = k
  · subst hi
    rw [Nat.testBit_eq_false_of_lt h]
    rfl
  · rw [Nat.testBit_two_pow]
    simp [Ne.symm hi]

/-- A mode made of permission bits only is applied as it is. -/
theorem syscallMode_perm (m : Nat) (h : m ≤ 0o777) : syscallMode (m % 2 ^ 32) = m := by
  have h32 : m % 2 ^ 32 = m := Nat.mod_eq_of_lt (by omega)
  have hp : m &&& 0o777 = m := by
    have h9 : m % 2 ^ 9 = m := Nat.mod_eq_of_lt (by omega)
    have h0 := Nat.and_pow_two_sub_one_eq_mod m 9
    rw [h9] at h0
    exact h0
  unfold syscallMode
  rw [h32, hp, land_two_pow_of_lt m 23 (by omega), land_two_pow_of_lt m 22 (by omega),
    land_two_pow_of_lt m 20 (by omega)]
  simp

@[simp] theorem syscallMode_private : syscallMode 0o600 = 0o600 := by decide

@[simp] theorem staged_files (w : World) (src : Stream) (name : String) (bytes : Bytes) :
    (stagedWorld w src name bytes).files
      = setFile w.files name (some ⟨bytes, w.euid, w.egid, 0o600⟩) := rfl
@[simp] theorem staged_faults (w : World) (src : Stream) (name : String) (bytes : Bytes) :
    (stagedWorld w src name bytes).faults = w.faults := rfl
@[simp] theorem staged_mount (w : World) (src : Stream) (name : String) (bytes : Bytes) :
    (stagedWorld w src name bytes).mount = w.mount := rfl
@[simp] theorem staged_users (w : World) (src : Stream) (name : String) (bytes : Bytes) :
    (stagedWorld w src name bytes).users = w.users := rfl
@[simp] theorem staged_groups (w : World) (src : Stream) (name : String) (bytes : Bytes) :
    (stagedWorld w src name bytes).groups = w.groups := rfl
@[simp] theorem staged_trace (w : World) (src : Stream) (name : String) (bytes : Bytes) :
    (stagedWorld w src name bytes).trace
      = w.trace ++ [.updateFile src, .log "debug" "Created temporary file"] := rfl

/-! ## Staging -/

/-- A created temporary file is a fresh name of the temporary directory and holds
nothing, with mode 0600. -/
theorem CreateTempFile_created (w : World) (name : String)
    (h1 : (CreateTempFile w).1 = some name) (h2 : (CreateTempFile w).2.1 = none) :
    w.files name = none ∧
    (∃ r, r ∈ w.randNames ∧ name = joinPath w.tmpDir ("rrchanged-" ++ r)) ∧
    (CreateTempFile w).2.2
      = w.setFiles (setFile w.files name (some ⟨[], w.euid, w.egid, 0o600⟩)) := by
  unfold CreateTempFile osCreateTemp at *
  cases hc : w.faults.createTemp with
  | some e => simp [hc] at h1
  | none =>
    simp only [hc] at h1 h2 ⊢
    cases hf : (w.randNames.map (fun r => joinPath w.tmpDir ("rrchanged-" ++ r))).find?
        (fun p => (w.files p).isNone) with
    | none => simp [hf] at h1
    | some p =>
      simp only [hf] at h1 h2 ⊢
      have hp : p = name := by simpa using h1
      subst hp
      have hfresh : w.files p = none := by
        have := List.find?_some hf
        simpa using this
      have hmem := List.mem_of_find?_eq_some hf
      rw [List.mem_map] at hmem
      obtain ⟨r, hr, hrp⟩ := hmem
      refine ⟨hfresh, ⟨r, hr, hrp.symm⟩, ?_⟩
      unfold osChmodWith at h2 ⊢
      cases hm : w.faults.chmodTemp with
      | some e => simp [hm] at h2
      | none => simp [hm, setFile_twice, World.setFiles]

/-- Error and sum of the pipeline depend on the world through its faults only. -/
theorem checksumPipeline_faults (lib : Lib) (job : Job) (w w1 : World) (a b : String)
    (src : Stream) (h : w1.faults = w.faults) :
    (checksumPipeline lib job w1 a src).1 = (checksumPipeline lib job w b src).1 ∧
    (checksumPipeline lib job w1 a src).2.1 = (checksumPipeline lib job w b src).2.1 := by
  unfold checksumPipeline DecryptWriteToFileAndChecksum WriteToFileAndChecksum copyOut
  rw [h]
  split
  · cases readSalt src with
    | error e => simp
    | ok x =>
      obtain ⟨salt, rest⟩ := x
      simp only
      cases lib.scryptKey job.Resource.Decryption.Password salt 32768 16 1 32 with
      | error e => simp
      | ok key =>
        simp only
        split <;> simp
  · simp

/-- A pipeline that ends without error has written the plaintext of the stream to the
file and returns its sum. -/
theorem checksumPipeline_ok (lib : Lib) (job : Job) (w : World) (name : String) (src : Stream)
    (h : (checksumPipeline lib job w name src).2.1 = none) :
    (checksumPipeline lib job w name src).1 = lib.sha512 (decryptedBytes lib job src) ∧
    (checksumPipeline lib job w name src).2.2 = writeTo w name (decryptedBytes lib job src) := by
  unfold checksumPipeline DecryptWriteToFileAndChecksum WriteToFileAndChecksum copyOut
    decryptedBytes at *
  split at h
  · rename_i hpw
    simp only [hpw, if_true]
    cases hs : readSalt src with
    | error e => simp [hs] at h
    | ok x =>
      obtain ⟨salt, rest⟩ := x
      simp only [hs] at h ⊢
      cases hk : lib.scryptKey job.Resource.Decryption.Password salt 32768 16 1 32 with
      | error e => simp [hk] at h
      | ok key =>
        simp only [hk] at h ⊢
        cases hw : w.faults.writeTemp with
        | none =>
          simp only [hw] at h ⊢
          cases hd : (lib.sioDecrypt key rest).2 with
          | none => simp [hd]
          | some e => simp [hd] at h
        | some ne =>
          obtain ⟨n, e⟩ := ne
          simp only [hw] at h ⊢
          by_cases hlt : n < (lib.sioDecrypt key rest).1.length
          · simp [hlt] at h
          · simp only [hlt, if_false] at h ⊢
            cases hd : (lib.sioDecrypt key rest).2 with
            | none => simp [hd]
            | some e => simp [hd] at h
  · rename_i hpw
    simp only [hpw, if_false]
    cases hw : w.faults.writeTemp with
    | none => simp [hw]
    | some ne =>
      obtain ⟨n, e⟩ := ne
      simp only [hw] at h ⊢
      by_cases hlt : n < src.data.length
      · simp [hlt] at h
      · simp [hlt]

/-- Once the temporary file is created and the pipeline has read the stream without
error, `UpdateFile` is its second half run in the staged world. -/
theorem UpdateFile_staged (lib : Lib) (job : Job) (src : Stream) (w : World) (name : String)
    (h1 : (CreateTempFile (w.emit (.updateFile src))).1 = some name)
    (h2 : (CreateTempFile (w.emit (.updateFile src))).2.1 = none)
    (hP : (checksumPipeline lib job w name src).2.1 = none) :
    UpdateFile lib job src w
      = placeOrDiscard lib job name (lib.sha512 (decryptedBytes lib job src))
          (stagedWorld w src name (decryptedBytes lib job src)) := by
  obtain ⟨-, -, h3⟩ := CreateTempFile_created _ name h1 h2
  have hT : CreateTempFile (w.emit (.updateFile src))
      = (some name, none, (w.emit (.updateFile src)).setFiles
          (setFile w.files name (some ⟨[], w.euid, w.egid, 0o600⟩))) := by
    have h3b : (CreateTempFile (w.emit (.updateFile src))).2.2
        = (w.emit (.updateFile src)).setFiles
            (setFile w.files name (some ⟨[], w.euid, w.egid, 0o600⟩)) := by
      simpa using h3
    rw [← h1, ← h2, ← h3b]
  unfold UpdateFile
  rw [hT]
  simp only
  have hf := checksumPipeline_faults lib job w
    (((w.emit (.updateFile src)).setFiles
      (setFile w.files name (some ⟨[], w.euid, w.egid, 0o600⟩))).emit
        (.log "debug" "Created temporary file")) name name src rfl
  have hP2 := hf.2.trans hP
  obtain ⟨hsum, hw⟩ := checksumPipeline_ok lib job _ name src hP2
  have hQ : checksumPipeline lib job
      (((w.emit (.updateFile src)).setFiles
        (setFile w.files name (some ⟨[], w.euid, w.egid, 0o600⟩))).emit
          (.log "debug" "Created temporary file")) name src
      = (lib.sha512 (decryptedBytes lib job src), none,
          stagedWorld w src name (decryptedBytes lib job src)) := by
    rw [← hsum, ← hP2]
    refine Prod.ext rfl (Prod.ext rfl ?_)
    rw [hw]
    simp [writeTo, World.setFiles, World.emit, stagedWorld, setFile_twice]
  rw [hQ]

/-! ## C1: unchanged content -/

/-- C1 (amended): when the temporary file is created, the pipeline reads the stream
without error, the target exists and is opened and read without error, and the sum of
the plaintext equals the sum of the target, `UpdateFile` returns `changed = false`,
leaves the target as it was and never runs `FinalizePlacement`; the temporary file is
removed with a nil error when `os.Remove` succeeds, and when it fails its error is
returned and the temporary file stays. -/
theorem UpdateFile_same_digest (lib : Lib) (job : Job) (src : Stream) (w : World)
    (name : String) (node : FileNode)
    (hname : (CreateTempFile (w.emit (.updateFile src))).1 = some name)
    (hcreated : (CreateTempFile (w.emit (.updateFile src))).2.1 = none)
    (hread : (checksumPipeline lib job w name src).2.1 = none)
    (hexists : w.files job.File.Path = some node)
    (hopen : w.faults.openTarget = none)
    (hreadT : w.faults.readTarget = none)
    (hdigest : lib.sha512 (decryptedBytes lib job src) = lib.sha512 node.data) :
    (UpdateFile lib job src w).1 = false ∧
    (UpdateFile lib job src w).2.2.files job.File.Path = some node ∧
    (∃ T, (UpdateFile lib job src w).2.2.trace = w.trace ++ T ∧ Event.finalizePlacement ∉ T) ∧
    (w.faults.remove = none →
      (UpdateFile lib job src w).2.1 = none ∧ (UpdateFile lib job src w).2.2.files name = none) ∧
    (∀ e, w.faults.remove = some e →
      (UpdateFile lib job src w).2.1 = some e ∧
      (UpdateFile lib job src w).2.2.files name
        = some ⟨decryptedBytes lib job src, w.euid, w.egid, 0o600⟩) := by
  obtain ⟨hfresh, -, -⟩ := CreateTempFile_created _ name hname hcreated
  have hne : job.File.Path ≠ name := by
    intro h
    rw [h] at hexists
    rw [emit_files, hexists] at hfresh
    cases hfresh
  rw [UpdateFile_staged lib job src w name hname hcreated hread]
  unfold placeOrDiscard CalculateFileChecksum osOpen osRemove
  simp only [staged_faults, staged_files, hopen, hreadT, setFile_other _ _ _ _ hne, hexists,
    hdigest, setFile_same]
  cases hrm : w.faults.remove with
  | none =>
    simp [isNotExist, setFile_other _ _ _ _ hne, hexists]
  | some e =>
    simp [isNotExist, setFile_other _ _ _ _ hne, hexists]

/-- C1, as stated, fails where `os.Remove` fails: the stream is read without error and
has the sum of the existing target, yet the call returns an error and the temporary
file is still there. -/
theorem UpdateFile_same_digest_remove_fails :
    (checksumPipeline sampleLib sampleJob removeFailsWorld "/tmp/rrchanged-1"
        ⟨[104, 105], none⟩).2.1 = none ∧
    removeFailsWorld.files sampleJob.File.Path = some ⟨[104, 105], 0, 0, 0o644⟩ ∧
    sampleLib.sha512 (decryptedBytes sampleLib sampleJob ⟨[104, 105], none⟩)
      = sampleLib.sha512 [104, 105] ∧
    (UpdateFile sampleLib sampleJob ⟨[104, 105], none⟩ removeFailsWorld).2.1 = some .EPERM ∧
    (UpdateFile sampleLib sampleJob ⟨[104, 105], none⟩ removeFailsWorld).2.2.files
        "/tmp/rrchanged-1" = some ⟨[104, 105], 0, 0, 0o600⟩ := by
  decide

/-- The amended C1 at the sample world: the same bytes arrive again. -/
theorem UpdateFile_same_digest_witness :
    (UpdateFile sampleLib sampleJob ⟨[104, 105], none⟩ sampleWorld).1 = false ∧
    (UpdateFile sampleLib sampleJob ⟨[104, 105], none⟩ sampleWorld).2.2.files "/etc/motd"
      = some ⟨[104, 105], 0, 0, 0o644⟩ ∧
    (UpdateFile sampleLib sampleJob ⟨[104, 105], none⟩ sampleWorld).2.1 = none ∧
    (UpdateFile sampleLib sampleJob ⟨[104, 105], none⟩ sampleWorld).2.2.files
      "/tmp/rrchanged-1" = none :=
  have h := UpdateFile_same_digest sampleLib sampleJob ⟨[104, 105], none⟩ sampleWorld
    "/tmp/rrchanged-1" ⟨[104, 105], 0, 0, 0o644⟩ (by decide) (by decide) (by decide)
    (by decide) (by decide) (by decide) (by decide)
  ⟨h.1, h.2.1, (h.2.2.2.1 (by decide)).1, (h.2.2.2.1 (by decide)).2⟩

/-! ## C2: first write -/

/-- When every step of `FinalizePlacement` succeeds, the target is the temporary file
with the resolved owner and group and the mode `os.Chmod` applies for the configured
one, and the temporary name is gone. -/
theorem FinalizePlacement_ok (job : Job) (name : String) (w : World) (n : FileNode)
    (u : User) (g : Group)
    (hn : w.files name = some n) (hne : name ≠ job.File.Path)
    (hrename : w.faults.rename = none) (hmount : w.mount name = w.mount job.File.Path)
    (howner : w.users job.File.Permissions.Owner = .ok u)
    (hgroup : w.groups job.File.Permissions.Group = .ok g)
    (hchown : w.faults.chown = none) (hchmod : w.faults.chmod = none) :
    (FinalizePlacement job name w).1 = none ∧
    (FinalizePlacement job name w).2.files job.File.Path
      = some ⟨n.data, chownId (atoi u.Uid) n.uid, chownId (atoi g.Gid) n.gid,
          syscallMode (job.File.Permissions.Mode % 2 ^ 32)⟩ ∧
    (FinalizePlacement job name w).2.files name = none := by
  unfold FinalizePlacement osRename osChown osChmodWith
  simp [hn, hne, hrename, hmount, howner, hgroup, hchown, hchmod, setFile, World.setFiles,
    World.emit]

/-- C2 (amended): when the target does not exist, the temporary file is created under
another name, the pipeline reads the stream without error, and every step of
`FinalizePlacement` succeeds (rename within one filesystem, owner and group found,
chown, chmod), `UpdateFile` returns `changed = true` with a nil error, and afterwards
the target holds exactly the plaintext of the stream, with the ids the configured
owner and group resolve to and the mode `os.Chmod` applies for the configured
`fs.FileMode`: its permission bits, with setuid, setgid and sticky taken from the
flags of the `fs.FileMode`; that is the configured mode itself when it has no bit
outside `0777`. -/
theorem UpdateFile_first_write (lib : Lib) (job : Job) (src : Stream) (w : World)
    (name : String) (u : User) (g : Group)
    (hname : (CreateTempFile (w.emit (.updateFile src))).1 = some name)
    (hcreated : (CreateTempFile (w.emit (.updateFile src))).2.1 = none)
    (hread : (checksumPipeline lib job w name src).2.1 = none)
    (habsent : w.files job.File.Path = none)
    (hother : name ≠ job.File.Path)
    (hsum : ∀ b, (lib.sha512 b).length = 64)
    (hrename : w.faults.rename = none) (hmount : w.mount name = w.mount job.File.Path)
    (howner : w.users job.File.Permissions.Owner = .ok u)
    (hgroup : w.groups job.File.Permissions.Group = .ok g)
    (hchown : w.faults.chown = none) (hchmod : w.faults.chmod = none) :
    (UpdateFile lib job src w).1 = true ∧
    (UpdateFile lib job src w).2.1 = none ∧
    (UpdateFile lib job src w).2.2.files job.File.Path
      = some ⟨decryptedBytes lib job src, chownId (atoi u.Uid) w.euid,
          chownId (atoi g.Gid) w.egid, syscallMode (job.File.Permissions.Mode % 2 ^ 32)⟩ ∧
    (job.File.Permissions.Mode ≤ 0o777 →
      (UpdateFile lib job src w).2.2.files job.File.Path
        = some ⟨decryptedBytes lib job src, chownId (atoi u.Uid) w.euid,
            chownId (atoi g.Gid) w.egid, job.File.Permissions.Mode⟩) := by
  rw [UpdateFile_staged lib job src w name hname hcreated hread]
  obtain ⟨hF1, hF2, -⟩ := FinalizePlacement_ok job name
    (stagedWorld w src name (decryptedBytes lib job src))
    ⟨decryptedBytes lib job src, w.euid, w.egid, 0o600⟩ u g (by simp) hother
    (by simpa using hrename) (by simpa using hmount) (by simpa using howner)
    (by simpa using hgroup) (by simpa using hchown) (by simpa using hchmod)
  have hpromote : (match FinalizePlacement job name
        (stagedWorld w src name (decryptedBytes lib job src)) with
      | (none, w4) => ((true, none, w4) : Bool × Option Err × World)
      | (some e, w4) => (false, some e, w4))
      = (true, none, (FinalizePlacement job name
          (stagedWorld w src name (decryptedBytes lib job src))).2) := by
    generalize FinalizePlacement job name
      (stagedWorld w src name (decryptedBytes lib job src)) = r at hF1 ⊢
    obtain ⟨e, w4⟩ := r
    simp only at hF1
    subst hF1
    rfl
  have hnil : lib.sha512 (decryptedBytes lib job src) ≠ [] := by
    intro h
    have := hsum (decryptedBytes lib job src)
    rw [h] at this
    simp at this
  unfold placeOrDiscard
  have hc : (CalculateFileChecksum lib job
      (stagedWorld w src name (decryptedBytes lib job src))).1 = [] := by
    unfold CalculateFileChecksum osOpen
    cases ho : w.faults.openTarget <;>
      simp [ho, setFile_other _ _ _ _ (Ne.symm hother), habsent]
  have hF3 : job.File.Permissions.Mode ≤ 0o777 →
      (FinalizePlacement job name
        (stagedWorld w src name (decryptedBytes lib job src))).2.files job.File.Path
        = some ⟨decryptedBytes lib job src, chownId (atoi u.Uid) w.euid,
            chownId (atoi g.Gid) w.egid, job.File.Permissions.Mode⟩ := by
    intro hperm
    rw [hF2, syscallMode_perm _ hperm]
  simp only [hc, hpromote]
  rw [if_pos hnil]
  split <;> exact ⟨rfl, rfl, hF2, hF3⟩

/-- C2, as stated, fails in two ways.  For a job whose owner cannot be resolved, the
target is absent and the empty stream is read without error, yet the call returns
`changed = false` with the lookup error, after the rename has put the file in place
with the owner, group and mode of the temporary file.  For a job whose configured mode
is `4755`, every step succeeds and the call returns `changed = true`, yet the target
has mode `0755`: `os.Chmod` applies the permission bits only, and the bit `04000` of a
`fs.FileMode` is not its setuid flag. -/
theorem UpdateFile_first_write_unknown_owner :
    emptyWorld.files ghostJob.File.Path = none ∧
    (checksumPipeline sampleLib ghostJob emptyWorld "/tmp/rrchanged-1" ⟨[], none⟩).2.1 = none ∧
    (UpdateFile sampleLib ghostJob ⟨[], none⟩ emptyWorld).1 = false ∧
    (UpdateFile sampleLib ghostJob ⟨[], none⟩ emptyWorld).2.1 = some (.unknownUser "ghost") ∧
    (UpdateFile sampleLib ghostJob ⟨[], none⟩ emptyWorld).2.2.files "/etc/motd"
      = some ⟨[], 0, 0, 0o600⟩ ∧
    setuidJob.File.Permissions.Mode = 0o4755 ∧
    (checksumPipeline sampleLib setuidJob emptyWorld "/tmp/rrchanged-1" ⟨[], none⟩).2.1 = none ∧
    (UpdateFile sampleLib setuidJob ⟨[], none⟩ emptyWorld).1 = true ∧
    (UpdateFile sampleLib setuidJob ⟨[], none⟩ emptyWorld).2.1 = none ∧
    (UpdateFile sampleLib setuidJob ⟨[], none⟩ emptyWorld).2.2.files "/etc/motd"
      = some ⟨[], 1000, 1000, 0o755⟩ := by
  decide

/-- The amended C2 at the sample world without the target: the empty stream creates
the file with the configured mode `0644`; and with the configured mode `4755` the file
gets mode `0755`. -/
theorem UpdateFile_first_write_witness :
    ((UpdateFile sampleLib sampleJob ⟨[], none⟩ emptyWorld).1 = true ∧
      (UpdateFile sampleLib sampleJob ⟨[], none⟩ emptyWorld).2.1 = none ∧
      (UpdateFile sampleLib sampleJob ⟨[], none⟩ emptyWorld).2.2.files "/etc/motd"
        = some ⟨[], 1000, 1000, 0o644⟩) ∧
    (UpdateFile sampleLib setuidJob ⟨[], none⟩ emptyWorld).2.2.files "/etc/motd"
      = some ⟨[], 1000, 1000, 0o755⟩ :=
  have h := UpdateFile_first_write sampleLib sampleJob ⟨[], none⟩ emptyWorld
    "/tmp/rrchanged-1" ⟨"1000", "1000"⟩ ⟨"1000"⟩ (by decide) (by decide) (by decide)
    (by decide) (by decide) (by intro b; simp [sampleLib]) (by decide) (by decide) rfl rfl
    (by decide) (by decide)
  have k := UpdateFile_first_write sampleLib setuidJob ⟨[], none⟩ emptyWorld
    "/tmp/rrchanged-1" ⟨"1000", "1000"⟩ ⟨"1000"⟩ (by decide) (by decide) (by decide)
    (by decide) (by decide) (by intro b; simp [sampleLib]) (by decide) (by decide) rfl rfl
    (by decide) (by decide)
  ⟨⟨h.1, h.2.1, h.2.2.2 (by decide)⟩, k.2.2.1⟩

/-! ## C8: the error of the target's checksum -/

/-- C8 (the code at the failing input): the target exists and `os.Open` fails with
a permission error, which is not "does not exist"; `UpdateFile` nevertheless promotes
the temporary file and returns `changed = true` with a nil error, and the target
is replaced. -/
theorem UpdateFile_swallows_open_error :
    unreadableWorld.files sampleJob.File.Path = some ⟨[104, 105], 0, 0, 0o644⟩ ∧
    (CalculateFileChecksum sampleLib sampleJob unreadableWorld).2 = some .EACCES ∧
    isNotExist .EACCES = false ∧
    (UpdateFile sampleLib sampleJob ⟨[104, 106], none⟩ unreadableWorld).1 = true ∧
    (UpdateFile sampleLib sampleJob ⟨[104, 106], none⟩ unreadableWorld).2.1 = none ∧
    (UpdateFile sampleLib sampleJob ⟨[104, 106], none⟩ unreadableWorld).2.2.files "/etc/motd"
      = some ⟨[104, 106], 1000, 1000, 0o644⟩ := by
  decide

/-! ## C9: where the temporary file is staged -/

/-- The mode `os.CreateTemp` gives a file has no bit outside 0600, whatever the umask. -/
theorem createTemp_mode_private (umask : Nat) :
    (0o600 &&& (0o777 ^^^ (umask &&& 0o777))) &&& 0o600
      = 0o600 &&& (0o777 ^^^ (umask &&& 0o777)) := by
  rw [Nat.land_comm, ← Nat.land_assoc, Nat.and_self]

/-- C9 (amended): the temporary file of `CreateTempFile` is a file `rrchanged-<random>`
of `os.TempDir()`, whatever the target path; it has no permission bit outside 0600
from creation and mode exactly 0600 once `CreateTempFile` has returned without error;
and when that directory is not on the filesystem of `job.File.Path`, the rename of
`FinalizePlacement` is not a same-filesystem rename: it fails and the target is as
before. -/
theorem CreateTempFile_location_and_mode (job : Job) (w : World) (name : String)
    (h : (CreateTempFile w).1 = some name) :
    (∃ r, r ∈ w.randNames ∧ name = joinPath w.tmpDir ("rrchanged-" ++ r)) ∧
    (∃ m, (osCreateTemp w "rrchanged-").2.files name = some ⟨[], w.euid, w.egid, m⟩ ∧
      m &&& 0o600 = m) ∧
    ((CreateTempFile w).2.1 = none →
      (CreateTempFile w).2.2.files name = some ⟨[], w.euid, w.egid, 0o600⟩) ∧
    (w.faults.rename = none → w.mount name ≠ w.mount job.File.Path →
      (FinalizePlacement job name (CreateTempFile w).2.2).1 = some .EXDEV ∧
      (FinalizePlacement job name (CreateTempFile w).2.2).2.files job.File.Path
        = w.files job.File.Path) := by
  unfold CreateTempFile osCreateTemp at *
  cases hc : w.faults.createTemp with
  | some e => simp [hc] at h
  | none =>
    simp only [hc] at h ⊢
    cases hf : (w.randNames.map (fun r => joinPath w.tmpDir ("rrchanged-" ++ r))).find?
        (fun p => (w.files p).isNone) with
    | none => simp [hf] at h
    | some p =>
      simp only [hf] at h ⊢
      have hp : p = name := by simpa using h
      subst hp
      have hmem := List.mem_of_find?_eq_some hf
      rw [List.mem_map] at hmem
      obtain ⟨r, hr, hrp⟩ := hmem
      refine ⟨⟨r, hr, hrp.symm⟩, ⟨_, by simp, createTemp_mode_private w.umask⟩, ?_, ?_⟩
      · unfold osChmodWith
        cases hm : w.faults.chmodTemp <;> simp [hm]
      · intro hren hmount
        have hne : job.File.Path ≠ p := by
          intro hEq
          rw [hEq] at hmount
          exact hmount rfl
        unfold FinalizePlacement osRename osChmodWith
        cases hm : w.faults.chmodTemp <;>
          simp [hm, hren, hmount, setFile_other _ _ _ _ hne]

/-- C9, as stated, fails where `os.TempDir()` and the target are on different
filesystems: the temporary file is created under `/tmp`, which is not the filesystem
of `/etc/motd`, and the rename of the update fails for that reason. -/
theorem CreateTempFile_other_filesystem :
    (CreateTempFile splitWorld).1 = some "/tmp/rrchanged-1" ∧
    splitWorld.mount "/tmp/rrchanged-1" ≠ splitWorld.mount sampleJob.File.Path ∧
    (UpdateFile sampleLib sampleJob ⟨[104, 106], none⟩ splitWorld).2.1 = some .EXDEV := by
  decide

/-- The amended C9 at the sample world with `/tmp` on its own filesystem. -/
theorem CreateTempFile_location_and_mode_witness :
    (CreateTempFile splitWorld).2.2.files "/tmp/rrchanged-1" = some ⟨[], 0, 0, 0o600⟩ ∧
    (FinalizePlacement sampleJob "/tmp/rrchanged-1" (CreateTempFile splitWorld).2.2).1
      = some .EXDEV :=
  have h := CreateTempFile_location_and_mode sampleJob splitWorld "/tmp/rrchanged-1"
    (by decide)
  ⟨h.2.2.1 (by decide), (h.2.2.2 (by decide) (by decide)).1⟩

/-! ## The retry loop -/

@[simp] theorem extend_trace (w : World) (T : List Event) : (w.extend T).trace = w.trace ++ T := rfl
@[simp] theorem extend_files (w : World) (T : List Event) : (w.extend T).files = w.files := rfl
@[simp] theorem extend_httpDo (w : World) (T : List Event) : (w.extend T).httpDo = w.httpDo := rfl

theorem emit_eq_extend (w : World) (e : Event) : w.emit e = w.extend [e] := rfl

theorem extend_extend (w : World) (A B : List Event) :
    (w.extend A).extend B = w.extend (A ++ B) := by
  simp [World.extend, List.append_assoc]

/-- One iteration that fails before the last attempt: the loop goes on with the next
attempt after a request, a log line and one second of sleep. -/
theorem httpAttempts_retry (lib : Lib) (job : Job) (r : HTTPResource) (n : Nat) (a : Int)
    (err : Option Err) (w : World)
    (hreq : lib.newRequestErr r.Method r.URL = none)
    (hfail : (w.httpDo a (conditionalRequest r)).failed r.Expect.Code = true)
    (hlt : a < r.MaxAttempts) :
    ∃ L : Event, L.isLog = true ∧
      httpAttempts lib job r (n + 1) a err w
        = httpAttempts lib job r n (a + 1)
            (some ((w.httpDo a (conditionalRequest r)).failure r.Expect.Code))
            (w.extend [.httpDo a (conditionalRequest r), L, .sleep second]) := by
  rw [httpAttempts]
  simp only [hreq]
  cases ho : w.httpDo a (conditionalRequest r) with
  | transportErr e =>
    refine ⟨.log "warn" "Failed HTTP request, retrying", rfl, ?_⟩
    simp [hlt, HttpOutcome.failure, emit_eq_extend, extend_extend]
  | response resp =>
    rw [ho] at hfail
    simp only [HttpOutcome.failed, decide_eq_true_eq] at hfail
    refine ⟨.log "warn" "Unexpected HTTP status code, retyring", rfl, ?_⟩
    simp [hlt, hfail.1, hfail.2, HttpOutcome.failure, emit_eq_extend, extend_extend]

/-- The last attempt, failing: the loop returns its error after a request and a log
line, without sleep. -/
theorem httpAttempts_last (lib : Lib) (job : Job) (r : HTTPResource) (n : Nat) (a : Int)
    (err : Option Err) (w : World)
    (hreq : lib.newRequestErr r.Method r.URL = none)
    (hfail : (w.httpDo a (conditionalRequest r)).failed r.Expect.Code = true)
    (hlast : ¬ a < r.MaxAttempts) :
    ∃ L : Event, L.isLog = true ∧
      httpAttempts lib job r (n + 1) a err w
        = (r, false, some ((w.httpDo a (conditionalRequest r)).failure r.Expect.Code),
            w.extend [.httpDo a (conditionalRequest r), L]) := by
  rw [httpAttempts]
  simp only [hreq]
  cases ho : w.httpDo a (conditionalRequest r) with
  | transportErr e =>
    refine ⟨.log "error" "Failed HTTP request", rfl, ?_⟩
    simp [hlast, HttpOutcome.failure, emit_eq_extend, extend_extend]
  | response resp =>
    rw [ho] at hfail
    simp only [HttpOutcome.failed, decide_eq_true_eq] at hfail
    refine ⟨.log "error" "Unexpected HTTP status code", rfl, ?_⟩
    simp [hlast, hfail.1, hfail.2, HttpOutcome.failure, emit_eq_extend, extend_extend]

/-- An attempt answered with status 304: the loop returns at once. -/
theorem httpAttempts_not_modified (lib : Lib) (job : Job) (r : HTTPResource) (n : Nat)
    (a : Int) (err : Option Err) (w : World) (resp : Response)
    (hreq : lib.newRequestErr r.Method r.URL = none)
    (ho : w.httpDo a (conditionalRequest r) = .response resp)
    (h304 : resp.status = 304) :
    httpAttempts lib job r (n + 1) a err w
      = (r, false, none, w.extend [.httpDo a (conditionalRequest r)]) := by
  rw [httpAttempts]
  simp [hreq, ho, h304, emit_eq_extend]

@[simp] theorem isLog_httpDo (a : Int) (q : Request) : (Event.httpDo a q).isLog = false := rfl
@[simp] theorem isLog_sleep (t : Int) : (Event.sleep t).isLog = false := rfl
@[simp] theorem isRequest_httpDo (a : Int) (q : Request) :
    (Event.httpDo a q).isRequest = true := rfl
@[simp] theorem isRequest_sleep (t : Int) : (Event.sleep t).isRequest = false := rfl
@[simp] theorem isSleep_httpDo (a : Int) (q : Request) : (Event.httpDo a q).isSleep = false := rfl
@[simp] theorem isSleep_sleep (t : Int) : (Event.sleep t).isSleep = true := rfl
@[simp] theorem isUpdateFile_httpDo (a : Int) (q : Request) :
    (Event.httpDo a q).isUpdateFile = false := rfl
@[simp] theorem isUpdateFile_sleep (t : Int) : (Event.sleep t).isUpdateFile = false := rfl

theorem isLog_not_request (e : Event) (h : e.isLog = true) :
    e.isRequest = false ∧ e.isSleep = false ∧ e.isUpdateFile = false := by
  cases e <;> simp_all [Event.isLog, Event.isRequest, Event.isSleep, Event.isUpdateFile]

/-- A run of failing attempts up to the last one: the loop returns the error of the
last attempt after one request per attempt and one sleep between consecutive ones. -/
theorem httpAttempts_exhaust (lib : Lib) (job : Job) (r : HTTPResource)
    (d : Int → Request → HttpOutcome)
    (hreq : lib.newRequestErr r.Method r.URL = none) :
    ∀ (n : Nat) (a : Int) (err : Option Err) (w : World), w.httpDo = d →
      a + n = r.MaxAttempts →
      (∀ k : Int, a ≤ k → k ≤ r.MaxAttempts →
        (d k (conditionalRequest r)).failed r.Expect.Code = true) →
      ∃ T, httpAttempts lib job r (n + 1) a err w
            = (r, false,
                some ((d r.MaxAttempts (conditionalRequest r)).failure r.Expect.Code),
                w.extend T) ∧
        T.filter (fun e => !e.isLog) = attemptEvents (conditionalRequest r) (n + 1) a ∧
        T.countP Event.isRequest = n + 1 ∧
        T.countP Event.isSleep = n ∧
        T.countP Event.isUpdateFile = 0 := by
  intro n
  induction n with
  | zero =>
    intro a err w hw ha hfail
    have haM : a = r.MaxAttempts := by omega
    have hf := hfail a (le_refl a) (by omega)
    rw [← hw] at hf
    obtain ⟨L, hL, hrun⟩ := httpAttempts_last lib job r 0 a err w hreq hf (by omega)
    obtain ⟨hL1, hL2, hL3⟩ := isLog_not_request L hL
    refine ⟨[.httpDo a (conditionalRequest r), L], ?_, ?_, ?_, ?_, ?_⟩
    · rw [hrun, hw, haM]
    · simp [List.filter, hL, attemptEvents]
    · simp [List.countP_cons, hL1]
    · simp [List.countP_cons, hL2]
    · simp [List.countP_cons, hL3]
  | succ n ih =>
    intro a err w hw ha hfail
    have hf := hfail a (le_refl a) (by omega)
    rw [← hw] at hf
    obtain ⟨L, hL, hrun⟩ := httpAttempts_retry lib job r (n + 1) a err w hreq hf (by omega)
    obtain ⟨hL1, hL2, hL3⟩ := isLog_not_request L hL
    obtain ⟨T, hT, hfilter, hc1, hc2, hc3⟩ := ih (a + 1)
      (some ((w.httpDo a (conditionalRequest r)).failure r.Expect.Code))
      (w.extend [.httpDo a (conditionalRequest r), L, .sleep second])
      (by simpa using hw) (by push_cast at ha ⊢; omega)
      (fun k hk1 hk2 => hfail k (by omega) hk2)
    refine ⟨[.httpDo a (conditionalRequest r), L, .sleep second] ++ T, ?_, ?_, ?_, ?_, ?_⟩
    · rw [hrun, hT, extend_extend]
    · simp [List.filter, hL, attemptEvents, hfilter]
    · simp [List.countP_cons, hL1, hc1]
    · simp [List.countP_cons, hL2, hc2]
    · simp [List.countP_cons, hL3, hc3]

/-- A run of failing attempts followed by an attempt answered with status 304: the
loop returns a nil error right after the request of that attempt. -/
theorem httpAttempts_reach_304 (lib : Lib) (job : Job) (r : HTTPResource)
    (d : Int → Request → HttpOutcome) (k : Int) (resp : Response)
    (hreq : lib.newRequestErr r.Method r.URL = none)
    (hk : k ≤ r.MaxAttempts)
    (ho : d k (conditionalRequest r) = .response resp) (h304 : resp.status = 304) :
    ∀ (j : Nat) (m : Nat) (a : Int) (err : Option Err) (w : World), w.httpDo = d →
      a + j = k →
      (∀ i : Int, a ≤ i → i < k → (d i (conditionalRequest r)).failed r.Expect.Code = true) →
      ∃ T, httpAttempts lib job r (m + j + 1) a err w = (r, false, none, w.extend T) ∧
        T.filter (fun e => !e.isLog) = attemptEvents (conditionalRequest r) (j + 1) a ∧
        T.countP Event.isRequest = j + 1 ∧
        T.countP Event.isUpdateFile = 0 ∧
        T.getLast? = some (.httpDo k (conditionalRequest r)) := by
  intro j
  induction j with
  | zero =>
    intro m a err w hw ha _
    have hak : a = k := by omega
    subst hak
    rw [← hw] at ho
    refine ⟨[.httpDo a (conditionalRequest r)], ?_, ?_, ?_, ?_, ?_⟩
    · exact httpAttempts_not_modified lib job r (m + 0) a err w resp hreq ho h304
    · simp [List.filter, attemptEvents]
    · simp
    · simp
    · simp
  | succ j ih =>
    intro m a err w hw ha hfail
    have hf := hfail a (le_refl a) (by omega)
    rw [← hw] at hf
    obtain ⟨L, hL, hrun⟩ :=
      httpAttempts_retry lib job r (m + j + 1) a err w hreq hf (by omega)
    obtain ⟨hL1, hL2, hL3⟩ := isLog_not_request L hL
    obtain ⟨T, hT, hfilter, hc1, hc3, hlast⟩ := ih m (a + 1)
      (some ((w.httpDo a (conditionalRequest r)).failure r.Expect.Code))
      (w.extend [.httpDo a (conditionalRequest r), L, .sleep second])
      (by simpa using hw) (by push_cast at ha ⊢; omega)
      (fun i hi1 hi2 => hfail i (by omega) hi2)
    have hTne : T ≠ [] := by
      intro hnil
      rw [hnil] at hlast
      simp at hlast
    refine ⟨[.httpDo a (conditionalRequest r), L, .sleep second] ++ T, ?_, ?_, ?_, ?_, ?_⟩
    · have hfuel : m + (j + 1) + 1 = (m + j + 1) + 1 := by omega
      rw [hfuel, hrun, hT, extend_extend]
    · simp [List.filter, hL, attemptEvents, hfilter]
    · simp [List.countP_cons, hL1, hc1]
    · simp [List.countP_cons, hL3, hc3]
    · rw [List.getLast?_append_of_ne_nil _ hTne, hlast]

theorem setHTTP_same (job : Job) (r : HTTPResource) (h : job.Resource.HTTP = some r) :
    job.setHTTP r = job := by
  obtain ⟨name, sched, res, file, trig⟩ := job
  obtain ⟨ty, dec, http, s3⟩ := res
  simp only at h
  subst h
  rfl

/-- The whole loop, when attempt `k` is answered with status 304 after failed attempts. -/
theorem httpAttempts_ends_304 (lib : Lib) (job : Job) (r : HTTPResource) (w : World)
    (k : Int) (resp : Response)
    (hreq : lib.newRequestErr r.Method r.URL = none)
    (hk1 : 1 ≤ k) (hk : k ≤ r.MaxAttempts)
    (hfail : ∀ i : Int, 1 ≤ i → i < k →
      (w.httpDo i (conditionalRequest r)).failed r.Expect.Code = true)
    (ho : w.httpDo k (conditionalRequest r) = .response resp)
    (h304 : resp.status = 304) :
    ∃ T, httpAttempts lib job r r.MaxAttempts.toNat 1 none w = (r, false, none, w.extend T) ∧
      T.filter (fun e => !e.isLog) = attemptEvents (conditionalRequest r) k.toNat 1 ∧
      T.countP Event.isRequest = k.toNat ∧
      T.countP Event.isUpdateFile = 0 ∧
      T.getLast? = some (.httpDo k (conditionalRequest r)) := by
  obtain ⟨j, hj⟩ : ∃ j : Nat, k.toNat = j + 1 := ⟨k.toNat - 1, by omega⟩
  obtain ⟨m, hm⟩ : ∃ m : Nat, r.MaxAttempts.toNat = m + j + 1 :=
    ⟨r.MaxAttempts.toNat - k.toNat, by omega⟩
  obtain ⟨T, hT, hfilter, hc1, hc3, hlast⟩ := httpAttempts_reach_304 lib job r w.httpDo k resp
    hreq hk ho h304 j m 1 none w rfl (by omega) hfail
  exact ⟨T, by rw [hm, hT], by rw [hj, hfilter], by rw [hj, hc1], hc3, hlast⟩

/-! ## C3: retry exhaustion -/

/-- C3: when `MaxAttempts` is at least 1 and every attempt fails (a transport error,
or a response whose status is neither 304 nor the expected code; the request itself
can be built), `HandleHTTPResource` returns `changed = false` with the error of the
last attempt; the calls it makes, log lines apart, are one request per attempt with
one second of sleep between consecutive attempts and none after the last, so
`MaxAttempts` requests, `MaxAttempts - 1` sleeps and no call of `UpdateFile`; the
file table and the job are as before. -/
theorem HandleHTTPResource_retry_exhaustion (lib : Lib) (job : Job) (r : HTTPResource)
    (w : World)
    (hr : job.Resource.HTTP = some r)
    (hreq : lib.newRequestErr r.Method r.URL = none)
    (hn : 1 ≤ r.MaxAttempts)
    (hfail : ∀ k : Int, 1 ≤ k → k ≤ r.MaxAttempts →
      (w.httpDo k (conditionalRequest r)).failed r.Expect.Code = true) :
    ∃ w1 T, HandleHTTPResource lib job w
        = some (job, false,
            some ((w.httpDo r.MaxAttempts (conditionalRequest r)).failure r.Expect.Code), w1) ∧
      w1.trace = w.trace ++ T ∧
      T.filter (fun e => !e.isLog)
        = attemptEvents (conditionalRequest r) r.MaxAttempts.toNat 1 ∧
      T.countP Event.isRequest = r.MaxAttempts.toNat ∧
      T.countP Event.isSleep = r.MaxAttempts.toNat - 1 ∧
      T.countP Event.isUpdateFile = 0 ∧
      w1.files = w.files := by
  obtain ⟨n, hnM⟩ : ∃ n : Nat, r.MaxAttempts.toNat = n + 1 := ⟨r.MaxAttempts.toNat - 1, by omega⟩
  obtain ⟨T, hT, hfilter, hc1, hc2, hc3⟩ := httpAttempts_exhaust lib job r w.httpDo hreq n 1 none w
    rfl (by omega) hfail
  refine ⟨w.extend T, T, ?_, rfl, ?_, ?_, ?_, hc3, rfl⟩
  · unfold HandleHTTPResource
    simp only [hr, hnM, hT, setHTTP_same job r hr]
  · rw [hnM, hfilter]
  · rw [hnM, hc1]
  · rw [hnM, hc2]; rfl

/-- C3 at the sample job (three attempts) and a server that refuses every connection. -/
theorem HandleHTTPResource_retry_exhaustion_witness :
    ∃ w1 T, HandleHTTPResource sampleLib sampleJob sampleWorld
        = some (sampleJob, false, some (.transport "connection refused"), w1) ∧
      w1.trace = sampleWorld.trace ++ T ∧
      T.filter (fun e => !e.isLog)
        = [.httpDo 1 (conditionalRequest sampleHTTP), .sleep second,
           .httpDo 2 (conditionalRequest sampleHTTP), .sleep second,
           .httpDo 3 (conditionalRequest sampleHTTP)] ∧
      T.countP Event.isRequest = 3 ∧
      T.countP Event.isSleep = 2 ∧
      T.countP Event.isUpdateFile = 0 ∧
      w1.files = sampleWorld.files :=
  HandleHTTPResource_retry_exhaustion sampleLib sampleJob sampleHTTP sampleWorld rfl rfl
    (by decide) (fun _ _ _ => rfl)

/-! ## C4: status 304 -/

/-- C4: when attempt `k`, not beyond `MaxAttempts`, is answered with status 304 after
earlier attempts that all failed, `HandleHTTPResource` returns `changed = false` with a
nil error, whatever the expected code; the request of attempt `k` is the last call it
makes, `k` requests are sent in all, `UpdateFile` is not called, and the job is as
before. -/
theorem HandleHTTPResource_not_modified (lib : Lib) (job : Job) (r : HTTPResource)
    (w : World) (k : Int) (resp : Response)
    (hr : job.Resource.HTTP = some r)
    (hreq : lib.newRequestErr r.Method r.URL = none)
    (hk1 : 1 ≤ k) (hk : k ≤ r.MaxAttempts)
    (hfail : ∀ i : Int, 1 ≤ i → i < k →
      (w.httpDo i (conditionalRequest r)).failed r.Expect.Code = true)
    (ho : w.httpDo k (conditionalRequest r) = .response resp)
    (h304 : resp.status = 304) :
    ∃ w1 T, HandleHTTPResource lib job w = some (job, false, none, w1) ∧
      w1.trace = w.trace ++ T ∧
      T.getLast? = some (.httpDo k (conditionalRequest r)) ∧
      T.countP Event.isRequest = k.toNat ∧
      T.countP Event.isUpdateFile = 0 ∧
      T.filter (fun e => !e.isLog) = attemptEvents (conditionalRequest r) k.toNat 1 ∧
      w1.files = w.files := by
  obtain ⟨T, hT, hfilter, hc1, hc3, hlast⟩ :=
    httpAttempts_ends_304 lib job r w k resp hreq hk1 hk hfail ho h304
  refine ⟨w.extend T, T, ?_, rfl, hlast, hc1, hc3, hfilter, rfl⟩
  unfold HandleHTTPResource
  simp only [hr, hT, setHTTP_same job r hr]

/-- C4 at the sample job, with a server that fails twice and then answers 304. -/
theorem HandleHTTPResource_not_modified_witness :
    ∃ w1 T, HandleHTTPResource sampleLib sampleJob thirdTimeWorld
        = some (sampleJob, false, none, w1) ∧
      w1.trace = thirdTimeWorld.trace ++ T ∧
      T.getLast? = some (.httpDo 3 (conditionalRequest sampleHTTP)) ∧
      T.countP Event.isRequest = 3 ∧
      T.countP Event.isUpdateFile = 0 ∧
      T.filter (fun e => !e.isLog) = attemptEvents (conditionalRequest sampleHTTP) 3 1 ∧
      w1.files = thirdTimeWorld.files :=
  HandleHTTPResource_not_modified sampleLib sampleJob sampleHTTP thirdTimeWorld 3 notModified
    rfl rfl (by decide) (by decide)
    (fun i h1 h3 => by
      have h : i = 1 ∨ i = 2 := by omega
      rcases h with h | h <;> subst h <;> rfl)
    rfl rfl

/-! ## The calls of `UpdateFile` -/

theorem CreateTempFile_trace (w : World) : (CreateTempFile w).2.2.trace = w.trace := by
  unfold CreateTempFile osCreateTemp osChmodWith
  cases w.faults.createTemp with
  | some e => rfl
  | none =>
    simp only
    cases (w.randNames.map (fun r => joinPath w.tmpDir ("rrchanged-" ++ r))).find?
        (fun p => (w.files p).isNone) with
    | none => rfl
    | some p =>
      simp only
      split
      · rfl
      · split <;> rfl

theorem writeTo_trace (w : World) (name : String) (b : Bytes) :
    (writeTo w name b).trace = w.trace := by
  unfold writeTo
  split <;> rfl

theorem checksumPipeline_trace (lib : Lib) (job : Job) (w : World) (name : String)
    (src : Stream) : (checksumPipeline lib job w name src).2.2.trace = w.trace := by
  unfold checksumPipeline DecryptWriteToFileAndChecksum WriteToFileAndChecksum
  split
  · cases readSalt src with
    | error e => rfl
    | ok x =>
      obtain ⟨salt, rest⟩ := x
      simp only
      cases lib.scryptKey job.Resource.Decryption.Password salt 32768 16 1 32 with
      | error e => rfl
      | ok key =>
        simp only
        split <;> simp [writeTo_trace]
  · simp [writeTo_trace]

theorem osRename_trace (w : World) (old new : String) :
    (osRename w old new).2.trace = w.trace := by
  unfold osRename
  repeat' split
  all_goals rfl

theorem osChown_trace (w : World) (name : String) (uid gid : Int) :
    (osChown w name uid gid).2.trace = w.trace := by
  unfold osChown
  repeat' split
  all_goals rfl

theorem osChmodWith_trace (fault : Option Err) (w : World) (name : String) (mode : Nat) :
    (osChmodWith fault w name mode).2.trace = w.trace := by
  unfold osChmodWith
  repeat' split
  all_goals rfl

theorem FinalizePlacement_trace (job : Job) (name : String) (w : World) :
    (FinalizePlacement job name w).2.trace = w.trace ++ [.finalizePlacement] := by
  have h1 := osRename_trace (w.emit .finalizePlacement) name job.File.Path
  unfold FinalizePlacement
  dsimp only
  generalize osRename (w.emit .finalizePlacement) name job.File.Path = x at h1 ⊢
  obtain ⟨e, w1⟩ := x
  simp only [emit_trace] at h1
  cases e with
  | some e => exact h1
  | none =>
    simp only
    cases w1.users job.File.Permissions.Owner with
    | error e => exact h1
    | ok u =>
      simp only
      cases w1.groups job.File.Permissions.Group with
      | error e => exact h1
      | ok g =>
        simp only
        have h2 := osChown_trace w1 job.File.Path (atoi u.Uid) (atoi g.Gid)
        generalize osChown w1 job.File.Path (atoi u.Uid) (atoi g.Gid) = y at h2 ⊢
        obtain ⟨e, w2⟩ := y
        simp only at h2
        cases e with
        | some e => exact h2.trans h1
        | none =>
          simp only
          rw [osChmodWith_trace]
          exact h2.trans h1

theorem osRemove_trace (w : World) (name : String) : (osRemove w name).2.trace = w.trace := by
  unfold osRemove
  repeat' split
  all_goals rfl

/-- The second half of `UpdateFile` adds to the trace only the call of
`FinalizePlacement` and log lines, and returns `changed = false` with every error. -/
theorem placeOrDiscard_calls (lib : Lib) (job : Job) (name : String) (h : Bytes) (w : World) :
    (∃ T, (placeOrDiscard lib job name h w).2.2.trace = w.trace ++ T ∧
      ∀ e ∈ T, e = .finalizePlacement ∨ e.isLog = true) ∧
    ((placeOrDiscard lib job name h w).2.1 ≠ none → (placeOrDiscard lib job name h w).1 = false) := by
  have hF := FinalizePlacement_trace job name w
  have hR := osRemove_trace w name
  unfold placeOrDiscard
  simp only
  split
  · generalize FinalizePlacement job name w = x at hF ⊢
    obtain ⟨e, w4⟩ := x
    cases e with
    | none => exact ⟨⟨[.finalizePlacement], hF, by simp⟩, by simp⟩
    | some e => exact ⟨⟨[.finalizePlacement], hF, by simp⟩, by simp⟩
  · split
    · generalize FinalizePlacement job name w = x at hF ⊢
      obtain ⟨e, w4⟩ := x
      cases e with
      | none => exact ⟨⟨[.finalizePlacement], hF, by simp⟩, by simp⟩
      | some e => exact ⟨⟨[.finalizePlacement], hF, by simp⟩, by simp⟩
    · generalize osRemove w name = x at hR ⊢
      obtain ⟨e, w4⟩ := x
      simp only at hR
      cases e with
      | none =>
        refine ⟨⟨[.log "debug" "Removed temporary file"], ?_, by simp [Event.isLog]⟩, by simp⟩
        simp [hR]
      | some e => exact ⟨⟨[], by simp [hR], by simp⟩, by simp⟩

/-- `UpdateFile` puts its own call on the trace, followed only by the call of
`FinalizePlacement` and log lines, and returns `changed = false` with every error. -/
theorem UpdateFile_calls (lib : Lib) (job : Job) (src : Stream) (w : World) :
    (∃ T, (UpdateFile lib job src w).2.2.trace = w.trace ++ .updateFile src :: T ∧
      ∀ e ∈ T, e = .finalizePlacement ∨ e.isLog = true) ∧
    ((UpdateFile lib job src w).2.1 ≠ none → (UpdateFile lib job src w).1 = false) := by
  have hC := CreateTempFile_trace (w.emit (.updateFile src))
  unfold UpdateFile
  generalize CreateTempFile (w.emit (.updateFile src)) = x at hC ⊢
  obtain ⟨file, e, w1⟩ := x
  simp only [emit_trace] at hC
  cases e with
  | some e => exact ⟨⟨[], by simp [hC], by simp⟩, by simp⟩
  | none =>
    cases file with
    | none => exact ⟨⟨[], by simp [hC], by simp⟩, by simp⟩
    | some name =>
      simp only
      have hP := checksumPipeline_trace lib job
        (w1.emit (.log "debug" "Created temporary file")) name src
      generalize checksumPipeline lib job
        (w1.emit (.log "debug" "Created temporary file")) name src = y at hP ⊢
      obtain ⟨sum, e, w3⟩ := y
      simp only [emit_trace] at hP
      cases e with
      | some e =>
        exact ⟨⟨[.log "debug" "Created temporary file"], by simp [hP, hC],
          by simp [Event.isLog]⟩, by simp⟩
      | none =>
        simp only
        obtain ⟨⟨T, hT, hTe⟩, hch⟩ := placeOrDiscard_calls lib job name sum w3
        refine ⟨⟨.log "debug" "Created temporary file" :: T, by simp [hT, hP, hC], ?_⟩, hch⟩
        intro e he
        rcases List.mem_cons.mp he with h | h
        · right; rw [h]; rfl
        · exact hTe e h

/-! ## The cache fields of the HTTP resource -/

/-- Every run of the loop ends in one of two ways: either the resource is returned as
it was, with `changed = false`; or some attempt got a response with the expected
status (not 304), that response went to `UpdateFile`, which returned a nil error, and
the cache fields are the `ETag` and, for GET and HEAD, the `Date` of that response. -/
theorem httpAttempts_cache (lib : Lib) (job : Job) (r : HTTPResource)
    (d : Int → Request → HttpOutcome) :
    ∀ (n : Nat) (a : Int) (err : Option Err) (w : World), w.httpDo = d →
      ((httpAttempts lib job r n a err w).1 = r ∧
        (httpAttempts lib job r n a err w).2.1 = false) ∨
      (∃ (k : Int) (resp : Response), d k (conditionalRequest r) = .response resp ∧
        resp.status = r.Expect.Code ∧ resp.status ≠ 304 ∧
        (httpAttempts lib job r n a err w).2.2.1 = none ∧
        (∃ T, (httpAttempts lib job r n a err w).2.2.2.trace = w.trace ++ T ∧
          .updateFile resp.body ∈ T) ∧
        (httpAttempts lib job r n a err w).1.headerIfNoneMatch = resp.header "ETag" ∧
        ((r.Method = "GET" ∨ r.Method = "HEAD") →
          (httpAttempts lib job r n a err w).1.headerIfModifiedSince = resp.header "Date") ∧
        (¬ (r.Method = "GET" ∨ r.Method = "HEAD") →
          (httpAttempts lib job r n a err w).1.headerIfModifiedSince
            = r.headerIfModifiedSince)) := by
  intro n
  induction n with
  | zero =>
    intro a err w _
    left
    exact ⟨rfl, rfl⟩
  | succ n ih =>
    intro a err w hw
    have hstep : ∀ (e : Err) (L : Event),
        ((httpAttempts lib job r n (a + 1) (some e)
            (((w.emit (.httpDo a (conditionalRequest r))).emit L).emit (.sleep second))).1 = r ∧
          (httpAttempts lib job r n (a + 1) (some e)
            (((w.emit (.httpDo a (conditionalRequest r))).emit L).emit (.sleep second))).2.1
              = false) ∨
        (∃ (k : Int) (resp : Response), d k (conditionalRequest r) = .response resp ∧
          resp.status = r.Expect.Code ∧ resp.status ≠ 304 ∧
          (httpAttempts lib job r n (a + 1) (some e)
            (((w.emit (.httpDo a (conditionalRequest r))).emit L).emit (.sleep second))).2.2.1
              = none ∧
          (∃ T, (httpAttempts lib job r n (a + 1) (some e)
            (((w.emit (.httpDo a (conditionalRequest r))).emit L).emit
              (.sleep second))).2.2.2.trace = w.trace ++ T ∧ .updateFile resp.body ∈ T) ∧
          (httpAttempts lib job r n (a + 1) (some e)
            (((w.emit (.httpDo a (conditionalRequest r))).emit L).emit
              (.sleep second))).1.headerIfNoneMatch = resp.header "ETag" ∧
          ((r.Method = "GET" ∨ r.Method = "HEAD") →
            (httpAttempts lib job r n (a + 1) (some e)
              (((w.emit (.httpDo a (conditionalRequest r))).emit L).emit
                (.sleep second))).1.headerIfModifiedSince = resp.header "Date") ∧
          (¬ (r.Method = "GET" ∨ r.Method = "HEAD") →
            (httpAttempts lib job r n (a + 1) (some e)
              (((w.emit (.httpDo a (conditionalRequest r))).emit L).emit
                (.sleep second))).1.headerIfModifiedSince = r.headerIfModifiedSince)) := by
      intro e L
      rcases ih (a + 1) (some e)
        (((w.emit (.httpDo a (conditionalRequest r))).emit L).emit (.sleep second))
        (by simpa using hw) with h | ⟨k, resp, h1, h2, h3, h4, ⟨T, hT, hmem⟩, h5⟩
      · exact Or.inl h
      · refine Or.inr ⟨k, resp, h1, h2, h3, h4,
          ⟨[.httpDo a (conditionalRequest r), L, .sleep second] ++ T, ?_, ?_⟩, h5⟩
        · rw [hT]; simp
        · exact List.mem_append_right _ hmem
    rw [httpAttempts]
    cases hq : lib.newRequestErr r.Method r.URL with
    | some e => left; exact ⟨rfl, rfl⟩
    | none =>
      simp only
      cases ho : w.httpDo a (conditionalRequest r) with
      | transportErr e =>
        simp only
        split
        · exact hstep e _
        · left; exact ⟨rfl, rfl⟩
      | response resp =>
        simp only
        split
        · left; exact ⟨rfl, rfl⟩
        · rename_i h304
          split
          · split
            · exact hstep _ _
            · left; exact ⟨rfl, rfl⟩
          · rename_i hcode
            have hcode2 : resp.status = r.Expect.Code := by
              by_contra hne
              exact hcode hne
            obtain ⟨⟨T, hT, -⟩, hunch⟩ := UpdateFile_calls lib job resp.body
              (w.emit (.httpDo a (conditionalRequest r)))
            generalize UpdateFile lib job resp.body
              (w.emit (.httpDo a (conditionalRequest r))) = y at hT hunch ⊢
            obtain ⟨changed, e, w2⟩ := y
            cases e with
            | some e =>
              left
              exact ⟨rfl, hunch (by simp)⟩
            | none =>
              right
              refine ⟨a, resp, ?_, hcode2, h304, rfl,
                ⟨.httpDo a (conditionalRequest r) :: .updateFile resp.body :: T, ?_, ?_⟩, ?_, ?_, ?_⟩
              · rw [← hw, ho]
              · simp only at hT
                rw [hT]; simp
              · simp
              · simp only
                split <;> rfl
              · intro hm
                simp only [hm, if_true]
              · intro hm
                simp only [hm, if_false]

/-! ## C5: cache update discipline -/

/-- C5: every call of `HandleHTTPResource` on a job with an HTTP resource returns, and
(1) if it returns `changed = true` with a nil error, then some response went to
`UpdateFile` and afterwards `headerIfNoneMatch` is the `ETag` of that response,
`headerIfModifiedSince` is its `Date` when the method is GET or HEAD and is unchanged
for any other method; (2) if it returns an error, or if it ends on a response with
status 304 after failed attempts, both cache fields have their values of before the
call. -/
theorem HandleHTTPResource_cache_discipline (lib : Lib) (job : Job) (r : HTTPResource)
    (w : World) (hr : job.Resource.HTTP = some r) :
    ∃ (job1 : Job) (changed : Bool) (err : Option Err) (w1 : World) (r1 : HTTPResource),
      HandleHTTPResource lib job w = some (job1, changed, err, w1) ∧
      job1.Resource.HTTP = some r1 ∧
      (changed = true → err = none →
        ∃ (k : Int) (resp : Response),
          w.httpDo k (conditionalRequest r) = .response resp ∧
          (∃ T, w1.trace = w.trace ++ T ∧ .updateFile resp.body ∈ T) ∧
          r1.headerIfNoneMatch = resp.header "ETag" ∧
          ((r.Method = "GET" ∨ r.Method = "HEAD") →
            r1.headerIfModifiedSince = resp.header "Date") ∧
          (¬ (r.Method = "GET" ∨ r.Method = "HEAD") →
            r1.headerIfModifiedSince = r.headerIfModifiedSince)) ∧
      (err ≠ none →
        r1.headerIfNoneMatch = r.headerIfNoneMatch ∧
        r1.headerIfModifiedSince = r.headerIfModifiedSince) ∧
      (∀ (k : Int) (resp : Response), lib.newRequestErr r.Method r.URL = none →
        1 ≤ k → k ≤ r.MaxAttempts →
        (∀ i : Int, 1 ≤ i → i < k →
          (w.httpDo i (conditionalRequest r)).failed r.Expect.Code = true) →
        w.httpDo k (conditionalRequest r) = .response resp → resp.status = 304 →
        r1.headerIfNoneMatch = r.headerIfNoneMatch ∧
        r1.headerIfModifiedSince = r.headerIfModifiedSince) := by
  have hH : HandleHTTPResource lib job w
      = some (job.setHTTP (httpAttempts lib job r r.MaxAttempts.toNat 1 none w).1,
          (httpAttempts lib job r r.MaxAttempts.toNat 1 none w).2.1,
          (httpAttempts lib job r r.MaxAttempts.toNat 1 none w).2.2.1,
          (httpAttempts lib job r r.MaxAttempts.toNat 1 none w).2.2.2) := by
    unfold HandleHTTPResource
    simp only [hr]
  have hcache := httpAttempts_cache lib job r w.httpDo r.MaxAttempts.toNat 1 none w rfl
  refine ⟨_, _, _, _, (httpAttempts lib job r r.MaxAttempts.toNat 1 none w).1, hH, rfl,
    ?_, ?_, ?_⟩
  · intro hc he
    rcases hcache with ⟨-, hf⟩ | ⟨k, resp, h1, -, -, -, hT, h5, h6, h7⟩
    · rw [hf] at hc
      cases hc
    · exact ⟨k, resp, h1, hT, h5, h6, h7⟩
  · intro hne
    rcases hcache with ⟨hsame, -⟩ | ⟨k, resp, -, -, -, h4, -⟩
    · rw [hsame]
      exact ⟨rfl, rfl⟩
    · exact absurd h4 hne
  · intro k resp hreq hk1 hk hfail ho h304
    obtain ⟨T, hT, -⟩ := httpAttempts_ends_304 lib job r w k resp hreq hk1 hk hfail ho h304
    rw [hT]
    exact ⟨rfl, rfl⟩

/-- C5 at the sample job and a server that answers with new bytes: the call returns
`changed = true` and the cache fields are the `ETag` and `Date` of the response. -/
theorem HandleHTTPResource_cache_discipline_witness :
    (∃ (job1 : Job) (changed : Bool) (err : Option Err) (w1 : World) (r1 : HTTPResource),
      HandleHTTPResource sampleLib sampleJob newBodyWorld = some (job1, changed, err, w1) ∧
      job1.Resource.HTTP = some r1 ∧
      (changed = true → err = none →
        ∃ (k : Int) (resp : Response),
          newBodyWorld.httpDo k (conditionalRequest sampleHTTP) = .response resp ∧
          (∃ T, w1.trace = newBodyWorld.trace ++ T ∧ .updateFile resp.body ∈ T) ∧
          r1.headerIfNoneMatch = resp.header "ETag" ∧
          ((sampleHTTP.Method = "GET" ∨ sampleHTTP.Method = "HEAD") →
            r1.headerIfModifiedSince = resp.header "Date") ∧
          (¬ (sampleHTTP.Method = "GET" ∨ sampleHTTP.Method = "HEAD") →
            r1.headerIfModifiedSince = sampleHTTP.headerIfModifiedSince)) ∧
      (err ≠ none →
        r1.headerIfNoneMatch = sampleHTTP.headerIfNoneMatch ∧
        r1.headerIfModifiedSince = sampleHTTP.headerIfModifiedSince) ∧
      (∀ (k : Int) (resp : Response),
        sampleLib.newRequestErr sampleHTTP.Method sampleHTTP.URL = none →
        1 ≤ k → k ≤ sampleHTTP.MaxAttempts →
        (∀ i : Int, 1 ≤ i → i < k →
          (newBodyWorld.httpDo i (conditionalRequest sampleHTTP)).failed
            sampleHTTP.Expect.Code = true) →
        newBodyWorld.httpDo k (conditionalRequest sampleHTTP) = .response resp →
        resp.status = 304 →
        r1.headerIfNoneMatch = sampleHTTP.headerIfNoneMatch ∧
        r1.headerIfModifiedSince = sampleHTTP.headerIfModifiedSince)) ∧
    (HandleHTTPResource sampleLib sampleJob newBodyWorld).map (fun x => (x.2.1, x.2.2.1))
      = some (true, none) ∧
    (HandleHTTPResource sampleLib sampleJob newBodyWorld).map (fun x => httpCache x.1)
      = some (some ("v2", "Tue, 03 Nov 2026 10:00:00 GMT")) :=
  ⟨HandleHTTPResource_cache_discipline sampleLib sampleJob sampleHTTP newBodyWorld rfl,
    by decide, by decide⟩

/-! ## C6: when the cache fields change -/

/-- C6 (amended): a cache field differs after a call of `HandleHTTPResource` or of
`HandleS3Resource` only if the call handed a stream to `UpdateFile` and returned a nil
error, whether `changed` is true or false; so on a 304 response, on an entity-tag
match and on every error the cache fields have their values of before the call. -/
theorem cache_changes_only_after_update (lib : Lib) (job : Job) (w : World) :
    (∀ (job1 : Job) (changed : Bool) (err : Option Err) (w1 : World),
      HandleHTTPResource lib job w = some (job1, changed, err, w1) →
      httpCache job1 ≠ httpCache job →
      err = none ∧ ∃ T src, w1.trace = w.trace ++ T ∧ .updateFile src ∈ T) ∧
    (∀ (job1 : Job) (changed : Bool) (err : Option Err) (w1 : World),
      HandleS3Resource lib job w = some (job1, changed, err, w1) →
      s3Cache job1 ≠ s3Cache job →
      err = none ∧ ∃ T src, w1.trace = w.trace ++ T ∧ .updateFile src ∈ T) := by
  constructor
  · intro job1 changed err w1 hrun hne
    unfold HandleHTTPResource at hrun
    cases hr : job.Resource.HTTP with
    | none => simp [hr] at hrun
    | some r =>
      simp only [hr, Option.some.injEq, Prod.mk.injEq] at hrun
      obtain ⟨hj, -, he, hw⟩ := hrun
      rcases httpAttempts_cache lib job r w.httpDo r.MaxAttempts.toNat 1 none w rfl with
        ⟨hsame, -⟩ | ⟨k, resp, -, -, -, h4, ⟨T, hT, hmem⟩, -⟩
      · exfalso
        apply hne
        rw [← hj, hsame, setHTTP_same job r hr]
      · refine ⟨he ▸ h4, T, resp.body, ?_, hmem⟩
        rw [← hw, hT]
  · intro job1 changed err w1 hrun hne
    unfold HandleS3Resource at hrun
    cases hs : job.Resource.S3 with
    | none => simp [hs] at hrun
    | some s =>
      simp only [hs] at hrun
      cases hm : w.minioNew with
      | some e =>
        simp only [hm, Option.some.injEq, Prod.mk.injEq] at hrun
        exact absurd (by rw [← hrun.1]) hne
      | none =>
        simp only [hm] at hrun
        cases hst : w.statObject with
        | error e =>
          simp only [hst, Option.some.injEq, Prod.mk.injEq] at hrun
          exact absurd (by rw [← hrun.1]) hne
        | ok etag =>
          simp only [hst] at hrun
          split at hrun
          · simp only [Option.some.injEq, Prod.mk.injEq] at hrun
            exact absurd (by rw [← hrun.1]) hne
          · cases hg : w.getObject with
            | error e =>
              simp only [hg, Option.some.injEq, Prod.mk.injEq] at hrun
              exact absurd (by rw [← hrun.1]) hne
            | ok obj =>
              simp only [hg] at hrun
              obtain ⟨⟨T, hT, -⟩, -⟩ := UpdateFile_calls lib job obj
                (((w.emit .minioNew).emit .statObject).emit .getObject)
              generalize UpdateFile lib job obj
                (((w.emit .minioNew).emit .statObject).emit .getObject) = y at hT hrun
              obtain ⟨c, e, w4⟩ := y
              cases e with
              | some e =>
                simp only [Option.some.injEq, Prod.mk.injEq] at hrun
                exact absurd (by rw [← hrun.1]) hne
              | none =>
                simp only [Option.some.injEq, Prod.mk.injEq] at hrun
                obtain ⟨-, -, he, hw⟩ := hrun
                refine ⟨he.symm, [.minioNew, .statObject, .getObject] ++ .updateFile obj :: T,
                  obj, ?_, by simp⟩
                rw [← hw]
                simp only at hT
                rw [hT]
                simp

/-- C6, as stated, fails: a response with the expected status whose body has the sum
of the existing target gives `changed = false` with a nil error, and the cache
fields are the `ETag` and `Date` of that response, not the empty values of before; the
object-store fetcher likewise stores the new entity tag with `changed = false`. -/
theorem cache_changes_without_new_content :
    (HandleHTTPResource sampleLib sampleJob sameBodyWorld).map (fun x => (x.2.1, x.2.2.1))
      = some (false, none) ∧
    (HandleHTTPResource sampleLib sampleJob sameBodyWorld).map (fun x => httpCache x.1)
      = some (some ("v2", "Tue, 03 Nov 2026 10:00:00 GMT")) ∧
    httpCache sampleJob = some ("", "") ∧
    (HandleS3Resource sampleLib sampleJob newTagWorld).map (fun x => (x.2.1, x.2.2.1))
      = some (false, none) ∧
    (HandleS3Resource sampleLib sampleJob newTagWorld).map (fun x => s3Cache x.1)
      = some (some "e2") ∧
    s3Cache sampleJob = some "e1" := by
  decide

/-- The amended C6 at the sample job and the server that answers with the bytes of the
target: the cache fields change, and the call did hand the body to `UpdateFile` and
returned a nil error. -/
theorem cache_changes_only_after_update_witness :
    ∃ (x : Job × Bool × Option Err × World),
      HandleHTTPResource sampleLib sampleJob sameBodyWorld = some x ∧
      httpCache x.1 ≠ httpCache sampleJob ∧
      x.2.2.1 = none ∧
      ∃ T src, x.2.2.2.trace = sameBodyWorld.trace ++ T ∧ .updateFile src ∈ T :=
  ⟨(sampleJob.setHTTP (httpAttempts sampleLib sampleJob sampleHTTP 3 1 none sameBodyWorld).1,
      (httpAttempts sampleLib sampleJob sampleHTTP 3 1 none sameBodyWorld).2.1,
      (httpAttempts sampleLib sampleJob sampleHTTP 3 1 none sameBodyWorld).2.2.1,
      (httpAttempts sampleLib sampleJob sampleHTTP 3 1 none sameBodyWorld).2.2.2),
    rfl, by decide,
    (cache_changes_only_after_update sampleLib sampleJob sameBodyWorld).1 _ _ _ _ rfl
      (by decide)⟩

/-! ## C10: the entity tag of the object store -/

/-- C10: when `StatObject` succeeds, (1) if its entity tag equals the cached
`objInfoETag`, `HandleS3Resource` returns `changed = false` with a nil error and the job
as it was, and it calls neither `GetObject` nor `UpdateFile`; (2) if the tags differ and
the download and `UpdateFile` succeed, `objInfoETag` afterwards is the entity tag that
`StatObject` returned and `changed` is the result of `UpdateFile`. -/
theorem HandleS3Resource_entity_tag (lib : Lib) (job : Job) (s : S3Resource) (w : World)
    (etag : String)
    (hs : job.Resource.S3 = some s)
    (hnew : w.minioNew = none)
    (hstat : w.statObject = .ok etag) :
    (etag = s.objInfoETag →
      ∃ w1 T, HandleS3Resource lib job w = some (job, false, none, w1) ∧
        w1.trace = w.trace ++ T ∧
        Event.getObject ∉ T ∧
        T.countP Event.isUpdateFile = 0 ∧
        w1.files = w.files) ∧
    (etag ≠ s.objInfoETag → ∀ obj : Stream, w.getObject = .ok obj →
      (UpdateFile lib job obj
        (((w.emit .minioNew).emit .statObject).emit .getObject)).2.1 = none →
      ∃ job1 w1, HandleS3Resource lib job w
          = some (job1, (UpdateFile lib job obj
              (((w.emit .minioNew).emit .statObject).emit .getObject)).1, none, w1) ∧
        s3Cache job1 = some etag) := by
  constructor
  · intro heq
    refine ⟨(w.emit .minioNew).emit .statObject, [.minioNew, .statObject], ?_, by simp,
      by simp, by simp [Event.isUpdateFile], rfl⟩
    unfold HandleS3Resource
    simp [hs, hnew, hstat, heq]
  · intro hne obj hget hupd
    unfold HandleS3Resource
    simp only [hs, hnew, hstat, hget, Ne.symm hne, if_false]
    generalize UpdateFile lib job obj
      (((w.emit .minioNew).emit .statObject).emit .getObject) = y at hupd ⊢
    obtain ⟨c, e, w4⟩ := y
    simp only at hupd
    subst hupd
    exact ⟨_, _, rfl, rfl⟩

/-- C10 at the sample job: the stat'd tag `e1` is the cached one, so nothing is
downloaded; and with the tag `e2` the cached tag becomes `e2`. -/
theorem HandleS3Resource_entity_tag_witness :
    (∃ w1 T, HandleS3Resource sampleLib sampleJob sampleWorld
        = some (sampleJob, false, none, w1) ∧
      w1.trace = sampleWorld.trace ++ T ∧
      Event.getObject ∉ T ∧
      T.countP Event.isUpdateFile = 0 ∧
      w1.files = sampleWorld.files) ∧
    (∃ job1 w1, HandleS3Resource sampleLib sampleJob newTagWorld
        = some (job1, (UpdateFile sampleLib sampleJob ⟨[104, 105], none⟩
            (((newTagWorld.emit .minioNew).emit .statObject).emit .getObject)).1, none, w1) ∧
      s3Cache job1 = some "e2") :=
  ⟨(HandleS3Resource_entity_tag sampleLib sampleJob sampleS3 sampleWorld "e1" rfl rfl rfl).1
      rfl,
    (HandleS3Resource_entity_tag sampleLib sampleJob sampleS3 newTagWorld "e2" rfl rfl rfl).2
      (by decide) ⟨[104, 105], none⟩ rfl (by decide)⟩

/-! ## The calls of a fetch -/

theorem updater_event_not_trigger (e : Event) (h : e = .finalizePlacement ∨ e.isLog = true) :
    e.isTrigger = false := by
  rcases h with h | h
  · rw [h]; rfl
  · cases e <;> simp_all [Event.isLog, Event.isTrigger]

theorem UpdateFile_no_trigger (lib : Lib) (job : Job) (src : Stream) (w : World) :
    ∃ T, (UpdateFile lib job src w).2.2.trace = w.trace ++ T ∧
      ∀ e ∈ T, e.isTrigger = false := by
  obtain ⟨⟨T, hT, hTe⟩, -⟩ := UpdateFile_calls lib job src w
  refine ⟨.updateFile src :: T, hT, ?_⟩
  intro e he
  rcases List.mem_cons.mp he with h | h
  · rw [h]; rfl
  · exact updater_event_not_trigger e (hTe e h)

/-- The loop of the HTTP fetcher never calls `ExecuteTrigger`. -/
theorem httpAttempts_no_trigger (lib : Lib) (job : Job) (r : HTTPResource) :
    ∀ (n : Nat) (a : Int) (err : Option Err) (w : World),
      ∃ T, (httpAttempts lib job r n a err w).2.2.2.trace = w.trace ++ T ∧
        ∀ e ∈ T, e.isTrigger = false := by
  intro n
  induction n with
  | zero =>
    intro a err w
    exact ⟨[], by simp [httpAttempts], by simp⟩
  | succ n ih =>
    intro a err w
    have hstep : ∀ (e : Err) (L : Event), L.isTrigger = false →
        ∃ T, (httpAttempts lib job r n (a + 1) (some e)
            (((w.emit (.httpDo a (conditionalRequest r))).emit L).emit
              (.sleep second))).2.2.2.trace = w.trace ++ T ∧
          ∀ e ∈ T, e.isTrigger = false := by
      intro e L hL
      obtain ⟨T, hT, hTe⟩ := ih (a + 1) (some e)
        (((w.emit (.httpDo a (conditionalRequest r))).emit L).emit (.sleep second))
      refine ⟨[.httpDo a (conditionalRequest r), L, .sleep second] ++ T, ?_, ?_⟩
      · rw [hT]; simp
      · intro x hx
        rcases List.mem_append.mp hx with h | h
        · simp only [List.mem_cons, List.mem_singleton, List.not_mem_nil, or_false] at h
          rcases h with h | h | h
          · rw [h]; rfl
          · rw [h]; exact hL
          · rw [h]; rfl
        · exact hTe x h
    rw [httpAttempts]
    cases hq : lib.newRequestErr r.Method r.URL with
    | some e => exact ⟨[], by simp, by simp⟩
    | none =>
      simp only
      cases ho : w.httpDo a (conditionalRequest r) with
      | transportErr e =>
        simp only
        split
        · exact hstep e _ rfl
        · exact ⟨[.httpDo a (conditionalRequest r), .log "error" "Failed HTTP request"],
            by simp, by simp [Event.isTrigger]⟩
      | response resp =>
        simp only
        split
        · exact ⟨[.httpDo a (conditionalRequest r)], by simp, by simp [Event.isTrigger]⟩
        · split
          · split
            · exact hstep _ _ rfl
            · exact ⟨[.httpDo a (conditionalRequest r),
                .log "error" "Unexpected HTTP status code"], by simp, by simp [Event.isTrigger]⟩
          · obtain ⟨T, hT, hTe⟩ := UpdateFile_no_trigger lib job resp.body
              (w.emit (.httpDo a (conditionalRequest r)))
            have hres : ∀ y : Bool × Option Err × World,
                (match y with
                  | (changed, some e, w2) => (r, changed, some e, w2)
                  | (changed, none, w2) =>
                    ((if r.Method = "GET" ∨ r.Method = "HEAD"
                      then { ({ r with headerIfNoneMatch := resp.header "ETag" } : HTTPResource)
                              with headerIfModifiedSince := resp.header "Date" }
                      else { r with headerIfNoneMatch := resp.header "ETag" }),
                      changed, none, w2)).2.2.2 = y.2.2 := by
              intro y
              obtain ⟨c, e, w2⟩ := y
              cases e <;> rfl
            refine ⟨.httpDo a (conditionalRequest r) :: T, ?_, ?_⟩
            · rw [hres, hT]; simp
            · intro x hx
              rcases List.mem_cons.mp hx with h | h
              · rw [h]; rfl
              · exact hTe x h

/-- A fetch keeps the trigger of the job and never calls `ExecuteTrigger`. -/
theorem fetch_frame (lib : Lib) (job job1 : Job) (w w2 : World) (changed : Bool)
    (err : Option Err) (h : fetch lib job w = some (job1, changed, err, w2)) :
    job1.Trigger = job.Trigger ∧
    ∃ F, w2.trace = w.trace ++ F ∧ ∀ e ∈ F, e.isTrigger = false := by
  unfold fetch at h
  split at h
  · unfold HandleHTTPResource at h
    cases hr : job.Resource.HTTP with
    | none => simp [hr] at h
    | some r =>
      simp only [hr, Option.some.injEq, Prod.mk.injEq] at h
      obtain ⟨hj, -, -, hw⟩ := h
      obtain ⟨T, hT, hTe⟩ := httpAttempts_no_trigger lib job r r.MaxAttempts.toNat 1 none w
      refine ⟨by rw [← hj]; rfl, T, by rw [← hw, hT], hTe⟩
  · split at h
    · unfold HandleS3Resource at h
      cases hs : job.Resource.S3 with
      | none => simp [hs] at h
      | some s =>
        simp only [hs] at h
        cases hm : w.minioNew with
        | some e =>
          simp only [hm, Option.some.injEq, Prod.mk.injEq] at h
          obtain ⟨hj, -, -, hw⟩ := h
          exact ⟨by rw [← hj], [.minioNew], by rw [← hw]; simp, by simp [Event.isTrigger]⟩
        | none =>
          simp only [hm] at h
          cases hst : w.statObject with
          | error e =>
            simp only [hst, Option.some.injEq, Prod.mk.injEq] at h
            obtain ⟨hj, -, -, hw⟩ := h
            exact ⟨by rw [← hj], [.minioNew, .statObject], by rw [← hw]; simp,
              by simp [Event.isTrigger]⟩
          | ok etag =>
            simp only [hst] at h
            split at h
            · simp only [Option.some.injEq, Prod.mk.injEq] at h
              obtain ⟨hj, -, -, hw⟩ := h
              exact ⟨by rw [← hj], [.minioNew, .statObject], by rw [← hw]; simp,
                by simp [Event.isTrigger]⟩
            · cases hg : w.getObject with
              | error e =>
                simp only [hg, Option.some.injEq, Prod.mk.injEq] at h
                obtain ⟨hj, -, -, hw⟩ := h
                exact ⟨by rw [← hj], [.minioNew, .statObject, .getObject],
                  by rw [← hw]; simp, by simp [Event.isTrigger]⟩
              | ok obj =>
                simp only [hg] at h
                obtain ⟨T, hT, hTe⟩ := UpdateFile_no_trigger lib job obj
                  (((w.emit .minioNew).emit .statObject).emit .getObject)
                generalize UpdateFile lib job obj
                  (((w.emit .minioNew).emit .statObject).emit .getObject) = y at hT h
                obtain ⟨c, e, w4⟩ := y
                simp only at hT
                have hF : ∀ x ∈ [Event.minioNew, .statObject, .getObject] ++ T,
                    x.isTrigger = false := by
                  intro x hx
                  rcases List.mem_append.mp hx with hx1 | hx1
                  · simp only [List.mem_cons, List.mem_singleton, List.not_mem_nil,
                      or_false] at hx1
                    rcases hx1 with hx1 | hx1 | hx1 <;> (rw [hx1]; rfl)
                  · exact hTe x hx1
                cases e with
                | some e =>
                  simp only [Option.some.injEq, Prod.mk.injEq] at h
                  obtain ⟨hj, -, -, hw⟩ := h
                  exact ⟨by rw [← hj], _, by rw [← hw, hT]; simp, hF⟩
                | none =>
                  simp only [Option.some.injEq, Prod.mk.injEq] at h
                  obtain ⟨hj, -, -, hw⟩ := h
                  exact ⟨by rw [← hj]; rfl, _, by rw [← hw, hT]; simp, hF⟩
    · simp only [Option.some.injEq, Prod.mk.injEq] at h
      obtain ⟨hj, -, -, hw⟩ := h
      exact ⟨by rw [← hj], [], by rw [← hw]; simp, by simp⟩

/-! ## C7: the trigger -/

/-- With a command, `ExecuteTrigger` returns, and its own call is the only one on the
trace it adds. -/
theorem ExecuteTrigger_calls (job : Job) (w : World) (h : job.Trigger.Command ≠ []) :
    ∃ terr w3 S, ExecuteTrigger job w = some (terr, w3) ∧
      w3.trace = w.trace ++ .executeTrigger :: S ∧
      S.countP Event.isTrigger = 0 := by
  unfold ExecuteTrigger
  cases hc : job.Trigger.Command with
  | nil => exact absurd hc h
  | cons c args =>
    simp only
    cases w.users job.Trigger.User with
    | error e => exact ⟨_, _, [], rfl, rfl, rfl⟩
    | ok u =>
      simp only
      cases w.groups job.Trigger.Group with
      | error e => exact ⟨_, _, [], rfl, rfl, rfl⟩
      | ok g =>
        exact ⟨_, _, [.log "debug" "Executing trigger command",
          .cmdRun (c :: args) (atoi u.Uid % 2 ^ 32).toNat (atoi g.Gid % 2 ^ 32).toNat
            job.Trigger.CWD], rfl, by simp, rfl⟩

theorem jitterDelay_calls (job : Job) (w w0 : World) (h : jitterDelay job w = some w0) :
    ∃ J, w0.trace = w.trace ++ J ∧ J.countP Event.isTrigger = 0 := by
  unfold jitterDelay at h
  split at h
  · simp only at h
    split at h
    · cases h
    · simp only [Option.some.injEq] at h
      exact ⟨[.log "debug" "Delaying due to jitter",
        .sleep (wrap64 (1000000 * w.randIntn (wrap64 (job.Schedule.Jitter * 1000))))],
        by rw [← h]; simp, rfl⟩
  · simp only [Option.some.injEq] at h
    exact ⟨[], by rw [h]; simp, rfl⟩

/-- C7: in a firing of `Run` whose jitter delay is over and whose fetch has returned
`(changed, err)`, everything up to the end of the fetch is without call of
`ExecuteTrigger`; what follows the fetch holds exactly one call of `ExecuteTrigger` if
`changed` is true, `err` is nil and the command is not empty, and none otherwise; in
the first case the firing ends with the log line "Finished job, file updated",
whatever the trigger returned. -/
theorem Run_trigger (lib : Lib) (job job1 : Job) (w w0 w2 : World) (changed : Bool)
    (err : Option Err)
    (hj : jitterDelay job w = some w0)
    (hf : fetch lib job (w0.emit (.log "info" "Starting job"))
      = some (job1, changed, err, w2)) :
    ∃ w3 F S, Run lib job w = some (job1, w3) ∧
      w2.trace = w.trace ++ F ∧
      F.countP Event.isTrigger = 0 ∧
      w3.trace = w2.trace ++ S ∧
      (changed = true ∧ err = none ∧ job.Trigger.Command ≠ [] →
        S.countP Event.isTrigger = 1 ∧
        S.getLast? = some (.log "info" "Finished job, file updated")) ∧
      (¬ (changed = true ∧ err = none ∧ job.Trigger.Command ≠ []) →
        S.countP Event.isTrigger = 0) := by
  obtain ⟨J, hJ, hJ0⟩ := jitterDelay_calls job w w0 hj
  obtain ⟨htrig, F, hF, hFe⟩ := fetch_frame lib job job1 _ w2 changed err hf
  have hF0 : F.countP Event.isTrigger = 0 := by
    rw [List.countP_eq_zero]
    intro e he
    simp [hFe e he]
  have hpre : w2.trace = w.trace ++ (J ++ .log "info" "Starting job" :: F) := by
    rw [hF, emit_trace, hJ]
    simp
  have hpre0 : (J ++ .log "info" "Starting job" :: F).countP Event.isTrigger = 0 := by
    rw [List.countP_append, List.countP_cons, hJ0, hF0]
    rfl
  unfold Run
  simp only [hj, hf]
  cases err with
  | some e =>
    cases changed <;>
      exact ⟨_, _, [.log "error" "Failed job"], rfl, hpre, hpre0, rfl,
        (by intro h; cases h.2.1), (by intro _; rfl)⟩
  | none =>
    cases changed with
    | false =>
      exact ⟨_, _, [.log "info" "Finished job, file not updated"], rfl, hpre, hpre0, rfl,
        (by intro h; cases h.1), (by intro _; rfl)⟩
    | true =>
      simp only
      by_cases hcmd : job.Trigger.Command = []
      · have hlen : ¬ job1.Trigger.Command.length > 0 := by
          rw [htrig, hcmd]; simp
        simp only [hlen, if_false]
        exact ⟨_, _, [.log "info" "Finished job, file updated"], rfl, hpre, hpre0, rfl,
          (by intro h; exact absurd hcmd h.2.2), (by intro _; rfl)⟩
      · have hlen : job1.Trigger.Command.length > 0 := by
          rw [htrig]
          exact List.length_pos.mpr hcmd
        simp only [hlen, if_true]
        obtain ⟨terr, w3, S, hE, hS, hS0⟩ :=
          ExecuteTrigger_calls job1 w2 (by rw [htrig]; exact hcmd)
        rw [hE]
        cases terr with
        | none =>
          refine ⟨_, _, .executeTrigger :: S ++ [.log "info" "Finished job, file updated"],
            rfl, hpre, hpre0, by simp [hS], ?_, ?_⟩
          · intro _
            refine ⟨?_, ?_⟩
            · rw [List.countP_append, List.countP_cons, hS0]
              rfl
            · rw [List.getLast?_append_of_ne_nil _ (by simp)]
              rfl
          · intro h
            exact absurd ⟨trivial, trivial, hcmd⟩ h
        | some e =>
          refine ⟨_, _, .executeTrigger :: S ++ [.log "error" "Failed to execute trigger",
            .log "info" "Finished job, file updated"], rfl, hpre, hpre0, by simp [hS], ?_, ?_⟩
          · intro _
            refine ⟨?_, ?_⟩
            · rw [List.countP_append, List.countP_cons, hS0]
              rfl
            · rw [List.getLast?_append_of_ne_nil _ (by simp)]
              rfl
          · intro h
            exact absurd ⟨trivial, trivial, hcmd⟩ h

/-- C7 at the sample job, a server with new bytes and a trigger command that fails:
one call of `ExecuteTrigger`, after the fetch, and the firing ends as "file updated". -/
theorem Run_trigger_witness :
    ∃ job1 w3 F S, Run sampleLib sampleJob failingTriggerWorld = some (job1, w3) ∧
      w3.trace = (failingTriggerWorld.trace ++ F) ++ S ∧
      F.countP Event.isTrigger = 0 ∧
      S.countP Event.isTrigger = 1 ∧
      S.getLast? = some (.log "info" "Finished job, file updated") := by
  obtain ⟨w3, F, S, h1, h2, h3, h4, h5, -⟩ := Run_trigger sampleLib sampleJob
    (sampleJob.setHTTP (httpAttempts sampleLib sampleJob sampleHTTP 3 1 none
      (failingTriggerWorld.emit (.log "info" "Starting job"))).1)
    failingTriggerWorld failingTriggerWorld
    (httpAttempts sampleLib sampleJob sampleHTTP 3 1 none
      (failingTriggerWorld.emit (.log "info" "Starting job"))).2.2.2
    (httpAttempts sampleLib sampleJob sampleHTTP 3 1 none
      (failingTriggerWorld.emit (.log "info" "Starting job"))).2.1
    (httpAttempts sampleLib sampleJob sampleHTTP 3 1 none
      (failingTriggerWorld.emit (.log "info" "Starting job"))).2.2.1
    rfl rfl
  obtain ⟨h6, h7⟩ := h5 ⟨by decide, by decide, by decide⟩
  exact ⟨_, w3, F, S, h1, by rw [h4, h2], h3, h6, h7⟩

/-! ## C11: promotion that fails part-way -/

/-- `FinalizePlacement` is the five steps of promotion performed in order up to the
first failure. -/
theorem FinalizePlacement_in_order (job : Job) (name : String) (w : World) :
    FinalizePlacement job name w
      = firstFailure (promotionSteps job name) (w.emit .finalizePlacement) := by
  unfold FinalizePlacement promotionSteps
  dsimp only
  rw [firstFailure]
  generalize osRename (w.emit .finalizePlacement) name job.File.Path = x
  obtain ⟨e, w1⟩ := x
  cases e with
  | some e => rfl
  | none =>
    simp only
    rw [firstFailure]
    cases hu : w1.users job.File.Permissions.Owner with
    | error e => rfl
    | ok u =>
      simp only
      rw [firstFailure]
      cases hg : w1.groups job.File.Permissions.Group with
      | error e => rfl
      | ok g =>
        simp only
        rw [firstFailure]
        simp only [hu, hg]
        generalize osChown w1 job.File.Path (atoi u.Uid) (atoi g.Gid) = y
        obtain ⟨e, w2⟩ := y
        cases e with
        | some e => rfl
        | none =>
          simp only
          rw [firstFailure]
          generalize osChmodWith w2.faults.chmod w2 job.File.Path job.File.Permissions.Mode = z
          obtain ⟨e, w3⟩ := z
          cases e <;> rfl

/-- When `UpdateFile` promotes, its error and world are those of `FinalizePlacement`,
and `changed` is true exactly when that error is nil. -/
theorem placeOrDiscard_promotes (lib : Lib) (job : Job) (name : String) (h : Bytes)
    (w : World) (hp : promotes lib job h w = true) :
    (placeOrDiscard lib job name h w).2.1 = (FinalizePlacement job name w).1 ∧
    (placeOrDiscard lib job name h w).2.2 = (FinalizePlacement job name w).2 ∧
    ((FinalizePlacement job name w).1 ≠ none → (placeOrDiscard lib job name h w).1 = false) := by
  have hres : (match FinalizePlacement job name w with
      | (none, w4) => ((true, none, w4) : Bool × Option Err × World)
      | (some e, w4) => (false, some e, w4)).2.1 = (FinalizePlacement job name w).1 ∧
      (match FinalizePlacement job name w with
      | (none, w4) => ((true, none, w4) : Bool × Option Err × World)
      | (some e, w4) => (false, some e, w4)).2.2 = (FinalizePlacement job name w).2 ∧
      ((FinalizePlacement job name w).1 ≠ none →
        (match FinalizePlacement job name w with
        | (none, w4) => ((true, none, w4) : Bool × Option Err × World)
        | (some e, w4) => (false, some e, w4)).1 = false) := by
    generalize FinalizePlacement job name w = x
    obtain ⟨e, w4⟩ := x
    cases e <;> simp
  unfold promotes at hp
  unfold placeOrDiscard
  simp only
  by_cases h1 : (CalculateFileChecksum lib job w).2.any isNotExist = true
  · rw [if_pos h1]
    exact hres
  · rw [if_neg h1]
    have h2 : h ≠ (CalculateFileChecksum lib job w).1 := by
      simpa [h1] using hp
    rw [if_pos h2]
    exact hres

/-- A rename that fails ends `FinalizePlacement` with an error and the file table as
it was. -/
theorem FinalizePlacement_rename_fails (job : Job) (name : String) (w : World)
    (h : w.faults.rename ≠ none ∨ w.mount name ≠ w.mount job.File.Path) :
    (FinalizePlacement job name w).1 ≠ none ∧ (FinalizePlacement job name w).2.files = w.files := by
  unfold FinalizePlacement osRename
  simp only [emit_faults, emit_files, emit_mount]
  cases hr : w.faults.rename with
  | some e => simp
  | none =>
    simp only
    cases hn : w.files name with
    | none => simp
    | some n =>
      have hm : w.mount name ≠ w.mount job.File.Path := by
        rcases h with h | h
        · exact absurd hr h
        · exact h
      simp [hm]

/-- A rename that succeeds followed by a step that fails ends `FinalizePlacement` with
an error and the bytes of the temporary file at the target path. -/
theorem FinalizePlacement_later_step_fails (job : Job) (name : String) (w : World)
    (n : FileNode) (hn : w.files name = some n)
    (hrename : w.faults.rename = none) (hmount : w.mount name = w.mount job.File.Path)
    (hlater : (∃ e, w.users job.File.Permissions.Owner = .error e) ∨
      (∃ e, w.groups job.File.Permissions.Group = .error e) ∨
      w.faults.chown ≠ none ∨ w.faults.chmod ≠ none) :
    (FinalizePlacement job name w).1 ≠ none ∧
    ∃ node, (FinalizePlacement job name w).2.files job.File.Path = some node ∧
      node.data = n.data := by
  unfold FinalizePlacement osRename osChown osChmodWith
  simp only [emit_faults, emit_files, emit_mount, emit_users, emit_groups, hrename, hn, hmount,
    ne_eq, not_true_eq_false, if_false]
  by_cases hEq : name = job.File.Path
  · subst hEq
    simp only [if_true]
    cases hu : w.users job.File.Permissions.Owner with
    | error e => simp [hu, hn]
    | ok u =>
      cases hg : w.groups job.File.Permissions.Group with
      | error e => simp [hu, hg, hn]
      | ok g =>
        cases hc : w.faults.chown with
        | some e => simp [hu, hg, hc, hn]
        | none =>
          cases hm : w.faults.chmod with
          | some e => simp [hu, hg, hc, hm, hn]
          | none => simp [hu, hg, hc, hm] at hlater
  · simp only [hEq, if_false]
    cases hu : w.users job.File.Permissions.Owner with
    | error e => simp [hu]
    | ok u =>
      cases hg : w.groups job.File.Permissions.Group with
      | error e => simp [hu, hg]
      | ok g =>
        cases hc : w.faults.chown with
        | some e => simp [hu, hg, hc]
        | none =>
          cases hm : w.faults.chmod with
          | some e => simp [hu, hg, hc, hm]
          | none => simp [hu, hg, hc, hm] at hlater

/-- C11: `FinalizePlacement` is rename, owner lookup, group lookup, chown, chmod
performed in that order up to the first step that fails, whose error it returns.  For
every call of `UpdateFile` that promotes (the temporary file is created, the pipeline
has read the stream, and the sums call for promotion): if the rename succeeds and a
later step fails (owner or group not resolved, chown, or chmod), `UpdateFile` returns
`changed = false` with a non-nil error while the target path already holds the new
content; if the rename itself fails, `UpdateFile` returns `changed = false` with a
non-nil error and the target is as it was before the call (the temporary file being
another path, as it is whenever the target existed). -/
theorem UpdateFile_partial_promotion (lib : Lib) (job : Job) (src : Stream) (w : World)
    (name : String)
    (hname : (CreateTempFile (w.emit (.updateFile src))).1 = some name)
    (hcreated : (CreateTempFile (w.emit (.updateFile src))).2.1 = none)
    (hread : (checksumPipeline lib job w name src).2.1 = none)
    (hprom : promotes lib job (lib.sha512 (decryptedBytes lib job src))
      (stagedWorld w src name (decryptedBytes lib job src)) = true) :
    (∀ (n : String) (v : World), FinalizePlacement job n v
      = firstFailure (promotionSteps job n) (v.emit .finalizePlacement)) ∧
    (w.faults.rename = none → w.mount name = w.mount job.File.Path →
      ((∃ e, w.users job.File.Permissions.Owner = .error e) ∨
        (∃ e, w.groups job.File.Permissions.Group = .error e) ∨
        w.faults.chown ≠ none ∨ w.faults.chmod ≠ none) →
      (UpdateFile lib job src w).1 = false ∧
      (UpdateFile lib job src w).2.1 ≠ none ∧
      ∃ node, (UpdateFile lib job src w).2.2.files job.File.Path = some node ∧
        node.data = decryptedBytes lib job src) ∧
    ((w.faults.rename ≠ none ∨ w.mount name ≠ w.mount job.File.Path) →
      (UpdateFile lib job src w).1 = false ∧
      (UpdateFile lib job src w).2.1 ≠ none ∧
      ((w.files job.File.Path ≠ none ∨ name ≠ job.File.Path) →
        (UpdateFile lib job src w).2.2.files job.File.Path = w.files job.File.Path)) := by
  obtain ⟨hfresh, -, -⟩ := CreateTempFile_created _ name hname hcreated
  rw [emit_files] at hfresh
  obtain ⟨herr, hworld, hchanged⟩ := placeOrDiscard_promotes lib job name _ _ hprom
  rw [UpdateFile_staged lib job src w name hname hcreated hread]
  refine ⟨FinalizePlacement_in_order job, ?_, ?_⟩
  · intro hrename hmount hlater
    obtain ⟨hne, node, hnode, hdata⟩ := FinalizePlacement_later_step_fails job name
      (stagedWorld w src name (decryptedBytes lib job src))
      ⟨decryptedBytes lib job src, w.euid, w.egid, 0o600⟩ (by simp)
      (by simpa using hrename) (by simpa using hmount) (by simpa using hlater)
    refine ⟨hchanged hne, by rw [herr]; exact hne, node, ?_, hdata⟩
    rw [hworld]
    exact hnode
  · intro hfail
    obtain ⟨hne, hfiles⟩ := FinalizePlacement_rename_fails job name
      (stagedWorld w src name (decryptedBytes lib job src)) (by simpa using hfail)
    refine ⟨hchanged hne, by rw [herr]; exact hne, ?_⟩
    intro hother
    have hpath : job.File.Path ≠ name := by
      rcases hother with h | h
      · intro hEq
        rw [hEq] at h
        exact h hfresh
      · exact Ne.symm h
    rw [hworld, hfiles, staged_files, setFile_other _ _ _ _ hpath]

/-- C11 at the sample world: with an unknown owner the call fails after the rename and
the target holds the new bytes; with a failing rename the target is as before. -/
theorem UpdateFile_partial_promotion_witness :
    ((UpdateFile sampleLib ghostJob ⟨[104, 106], none⟩ sampleWorld).1 = false ∧
      (UpdateFile sampleLib ghostJob ⟨[104, 106], none⟩ sampleWorld).2.1 ≠ none ∧
      ∃ node, (UpdateFile sampleLib ghostJob ⟨[104, 106], none⟩ sampleWorld).2.2.files
          ghostJob.File.Path = some node ∧
        node.data = decryptedBytes sampleLib ghostJob ⟨[104, 106], none⟩) ∧
    ((UpdateFile sampleLib sampleJob ⟨[104, 106], none⟩ renameFailsWorld).1 = false ∧
      (UpdateFile sampleLib sampleJob ⟨[104, 106], none⟩ renameFailsWorld).2.1 ≠ none ∧
      (UpdateFile sampleLib sampleJob ⟨[104, 106], none⟩ renameFailsWorld).2.2.files
          sampleJob.File.Path = renameFailsWorld.files sampleJob.File.Path) :=
  ⟨(UpdateFile_partial_promotion sampleLib ghostJob ⟨[104, 106], none⟩ sampleWorld
      "/tmp/rrchanged-1" (by decide) (by decide) (by decide) (by decide)).2.1
      (by decide) (by decide) (Or.inl ⟨.unknownUser "ghost", rfl⟩),
    have h := (UpdateFile_partial_promotion sampleLib sampleJob ⟨[104, 106], none⟩
      renameFailsWorld "/tmp/rrchanged-1" (by decide) (by decide) (by decide)
      (by decide)).2.2 (Or.inl (by decide))
    ⟨h.1, h.2.1, h.2.2 (Or.inr (by decide))⟩⟩

end Filehitch
